import Mathlib

/-!
Verification development for the resilient external-tool gateway and
cost-estimation engine of the simple-architect-assistant repository.

The Python sources `src/services/aws_service_code_helper.py` and
`src/services/mcp_client.py` are shallowly embedded below.  Python dicts are
modelled as association lists in insertion order (keys unique in practice, and
lookups return the first binding, which coincides with dict semantics).
`None`-returning fallible code is modelled with `Option`; code that may raise
and is observed through `try`/`except` is modelled with `Except Unit`.
Timestamps are rationals.  The SHA-256 digest applied to cache keys is modelled
as the identity on the serialized parameter string (the spec assumes the digest
is collision-resistant, so key equality coincides with serialization equality).
-/


/-! ### Reducible arithmetic and string primitives

Core `Rat.mul`/`Rat.add`/`Rat.sub` are `@[irreducible]`, and core `String`
case/trim functions are defined by well-founded recursion, so neither reduces
inside `decide`/`rfl` proofs.  The embedding therefore uses its own reducible
wrappers, each provably equal to the library operation. -/

/-- Reducible rational multiplication (equal to `*`, see `qmul_eq`). -/
def qmul (a b : ℚ) : ℚ := mkRat (a.num * b.num) (a.den * b.den)

/-- Reducible rational addition (equal to `+`, see `qadd_eq`). -/
def qadd (a b : ℚ) : ℚ := mkRat (a.num * b.den + b.num * a.den) (a.den * b.den)

/-- Reducible rational subtraction (equal to `-`, see `qsub_eq`). -/
def qsub (a b : ℚ) : ℚ := mkRat (a.num * b.den - b.num * a.den) (a.den * b.den)

theorem qmul_eq (a b : ℚ) : qmul a b = a * b := by
  rw [qmul, Rat.mul_def, Rat.normalize_eq_mkRat]

theorem qadd_eq (a b : ℚ) : qadd a b = a + b := (Rat.add_def' a b).symm

theorem qsub_eq (a b : ℚ) : qsub a b = a - b := (Rat.sub_def' a b).symm

/-- Python `round()` to an integer: round half to even (banker's rounding). -/
def pyRoundInt (x : ℚ) : ℤ :=
  let n := x.floor
  let r := qsub x (mkRat n 1)
  if r < mkRat 1 2 then n
  else if mkRat 1 2 < r then n + 1
  else if n % 2 = 0 then n else n + 1

/-- Python `round(x, 2)` on exact rationals (float representation error is not
modelled). -/
def round2 (x : ℚ) : ℚ := mkRat (pyRoundInt (qmul x (mkRat 100 1))) 100

/-- Python `round(x, 4)`, used for the `:.4f` format of the hourly rate. -/
def round4 (x : ℚ) : ℤ := pyRoundInt (qmul x (mkRat 10000 1))

/-- ASCII lower-casing of one character (Python `str.lower` restricted to the
ASCII inputs this code base handles). -/
def asciiLower (c : Char) : Char :=
  if 'A' ≤ c ∧ c ≤ 'Z' then Char.ofNat (c.toNat + 32) else c

/-- ASCII upper-casing of one character. -/
def asciiUpper (c : Char) : Char :=
  if 'a' ≤ c ∧ c ≤ 'z' then Char.ofNat (c.toNat - 32) else c

/-- Python `str.lower()` (ASCII). -/
def pyLower (s : String) : String := ⟨s.data.map asciiLower⟩

/-- Python `str.upper()` (ASCII). -/
def pyUpper (s : String) : String := ⟨s.data.map asciiUpper⟩

/-- ASCII whitespace, as Python `str.strip()` and the regex class `\\s` treat
it (space, tab, newline, carriage return, vertical tab, form feed). -/
def isSpaceC (c : Char) : Bool :=
  c = ' ' || c = '\t' || c = '\n' || c = '\r' || c = '\x0b' || c = '\x0c'

/-- Python `str.strip()` (ASCII whitespace). -/
def pyStrip (s : String) : String :=
  ⟨((s.data.dropWhile isSpaceC).reverse.dropWhile isSpaceC).reverse⟩

/-- Emptiness test on strings that reduces in the kernel. -/
def strEmpty (s : String) : Bool := s.data.isEmpty

/-- Lookup in a Python dict modelled as an association list (first binding). -/
def dictLookup (d : List (String × α)) (k : String) : Option α :=
  (d.find? (fun p => p.1 = k)).map (·.2)

/-- Python dict insertion `d[k] = v`: overwrite in place if the key exists
(keeping its position, as CPython dicts do), else append. -/
def dictInsert (d : List (String × α)) (k : String) (v : α) : List (String × α) :=
  if (d.find? (fun p => p.1 = k)).isSome then
    d.map (fun p => if p.1 = k then (k, v) else p)
  else
    d ++ [(k, v)]

/-- List-infix test used to model Python's `needle in haystack` on strings. -/
def listInfixOf [DecidableEq α] (n : List α) (h : List α) : Bool :=
  n.isPrefixOf h ||
    match h with
    | [] => false
    | _ :: t => listInfixOf n t

/-- Python `needle in haystack` for strings. -/
def strIn (needle hay : String) : Bool :=
  listInfixOf needle.data hay.data

namespace AWSServiceCodeHelper

/-- The alias/abbreviation table `_get_service_aliases` from
`aws_service_code_helper.py`, verbatim. -/
def service_aliases : List (String × String) :=
  [("ec2", "amazon ec2"),
   ("lambda", "aws lambda"),
   ("lightsail", "amazon lightsail"),
   ("ecs", "amazon ecs"),
   ("eks", "amazon eks"),
   ("fargate", "amazon ecs"),
   ("s3", "amazon s3"),
   ("simple storage service", "amazon s3"),
   ("efs", "amazon efs"),
   ("fsx", "amazon fsx"),
   ("ebs", "amazon ec2"),
   ("elastic block store", "amazon ec2"),
   ("rds", "amazon rds"),
   ("relational database service", "amazon rds"),
   ("dynamo", "amazon dynamodb"),
   ("dynamodb", "amazon dynamodb"),
   ("redshift", "amazon redshift"),
   ("elasticache", "amazon elasticache"),
   ("bedrock", "amazon bedrock"),
   ("sagemaker", "amazon sagemaker"),
   ("rekognition", "amazon rekognition"),
   ("comprehend", "amazon comprehend"),
   ("cloudfront", "amazon cloudfront"),
   ("cdn", "amazon cloudfront"),
   ("route53", "amazon route 53"),
   ("route 53", "amazon route 53"),
   ("dns", "amazon route 53"),
   ("vpc", "amazon vpc"),
   ("elb", "elastic load balancing"),
   ("load balancer", "elastic load balancing"),
   ("alb", "elastic load balancing"),
   ("nlb", "elastic load balancing"),
   ("sns", "amazon sns"),
   ("sqs", "amazon sqs"),
   ("cloudwatch", "amazon cloudwatch"),
   ("iam", "aws iam"),
   ("config", "aws config"),
   ("cloudtrail", "aws cloudtrail")]

/-- The curated static table `_load_fallback_codes` from
`aws_service_code_helper.py`, verbatim and in insertion order. -/
def fallback_service_codes : List (String × String) :=
  [("amazon ec2", "AmazonEC2"),
   ("aws lambda", "AWSLambda"),
   ("amazon lightsail", "AmazonLightsail"),
   ("amazon ecs", "AmazonECS"),
   ("amazon eks", "AmazonEKS"),
   ("amazon s3", "AmazonS3"),
   ("amazon efs", "AmazonEFS"),
   ("amazon fsx", "AmazonFSx"),
   ("amazon rds", "AmazonRDS"),
   ("amazon dynamodb", "AmazonDynamoDB"),
   ("amazon redshift", "AmazonRedshift"),
   ("amazon elasticache", "AmazonElastiCache"),
   ("amazon bedrock", "AmazonBedrock"),
   ("amazon sagemaker", "AmazonSageMaker"),
   ("amazon rekognition", "AmazonRekognition"),
   ("amazon comprehend", "AmazonComprehend"),
   ("amazon cloudfront", "AmazonCloudFront"),
   ("amazon route 53", "AmazonRoute53"),
   ("amazon vpc", "AmazonVPC"),
   ("elastic load balancing", "AWSELB"),
   ("amazon sns", "AmazonSNS"),
   ("amazon sqs", "AmazonSQS"),
   ("amazon cloudwatch", "AmazonCloudWatch"),
   ("aws iam", "AmazonIdentityManagement"),
   ("aws config", "AWSConfig"),
   ("aws cloudtrail", "AWSCloudTrail")]

/-- `find_service_code`, embedded over a loaded catalog `codes`
(the source first re-triggers `_load_service_codes` when the catalog is
falsy and then returns `None` if it is still falsy; the embedding receives
the post-load catalog, so that path is the `codes = []` guard). -/
def find_service_code (codes : List (String × String)) (service_name : String) :
    Option String :=
  if codes.isEmpty then none
  else
    let s := pyStrip (pyLower service_name)
    match dictLookup codes s with
    | some code => some code
    | none =>
      match codes.find? (fun p => strIn s p.1 || strIn p.1 s) with
      | some p => some p.2
      | none =>
        match dictLookup service_aliases s with
        | some normalized =>
          if strEmpty normalized then none else dictLookup codes normalized
        | none => none

/-- Stage (1) of the lookup order as the spec words it: exact
case-insensitive match against the catalog. -/
def exactMatchStage (codes : List (String × String)) (key : String) :
    Option String :=
  dictLookup codes key

/-- Stage (2) of the lookup order as the spec words it: bidirectional
substring match, first match in the catalog's iteration order winning. -/
def substringMatchStage (codes : List (String × String)) (key : String) :
    Option String :=
  (codes.find? (fun p => strIn key p.1 || strIn p.1 key)).map (·.2)

/-- Stage (3) of the lookup order as the spec words it: alias-table lookup
of the input, then retry the exact match on the resolved display name. -/
def aliasMatchStage (codes : List (String × String)) (key : String) :
    Option String :=
  match dictLookup service_aliases key with
  | some normalized =>
    if strEmpty normalized then none else dictLookup codes normalized
  | none => none

/-- Modelled from the spec: the staged lookup order for `findServiceCode` as
section 4.2 describes it — (1) exact, else (2) substring, else (3) alias;
absent when none match. -/
def findServiceCode_spec (codes : List (String × String)) (name : String) :
    Option String :=
  let key := pyStrip (pyLower name)
  ((exactMatchStage codes key).orElse fun _ =>
    (substringMatchStage codes key).orElse fun _ =>
      aliasMatchStage codes key)

/-- The mutable state of `AWSServiceCodeHelper`. -/
structure HelperState where
  service_codes : Option (List (String × String))
  last_updated : Option ℚ
  cache_duration : ℚ
deriving Repr, DecidableEq

/-- Environment for `_load_service_codes`: the remote Price List fetch either
yields the raw `(serviceName, offerCode)` pairs of the offer index or raises. -/
structure FetchEnv where
  fetch : Except Unit (List (String × String))

/-- `_is_cache_valid`: Python's `not self.service_codes` is true both for
`None` and for an empty dict.  Time is measured in hours. -/
def is_cache_valid (st : HelperState) (now : ℚ) : Bool :=
  match st.last_updated, st.service_codes with
  | some t, some codes =>
    if codes.isEmpty then false else decide (now < qadd t st.cache_duration)
  | _, _ => false

/-- Catalog construction from the fetched offer index: lowercase the service
name and keep the pair only when both name and code are non-empty. -/
def buildCatalog (offers : List (String × String)) : List (String × String) :=
  offers.foldl
    (fun d p =>
      let n := pyLower p.1
      if !strEmpty n && !strEmpty p.2 then dictInsert d n p.2 else d)
    []

/-- `_load_service_codes`: skip when the cache is valid; otherwise fetch the
remote index and build the catalog, falling back to the static table on any
failure. -/
def load_service_codes (env : FetchEnv) (st : HelperState) (now : ℚ) :
    HelperState :=
  if is_cache_valid st now then st
  else
    match env.fetch with
    | .ok offers =>
      { st with service_codes := some (buildCatalog offers), last_updated := some now }
    | .error _ =>
      { st with service_codes := some fallback_service_codes, last_updated := some now }

/-- `refresh_service_codes`: clear `last_updated` and `service_codes`, re-run
`_load_service_codes`, and return whether `service_codes` is not `None`
(the source's own `except` arm is unreachable because `_load_service_codes`
catches every failure internally). -/
def refresh_service_codes (env : FetchEnv) (st : HelperState) (now : ℚ) :
    HelperState × Bool :=
  let st' := load_service_codes env
    { st with last_updated := none, service_codes := none } now
  (st', st'.service_codes.isSome)

end AWSServiceCodeHelper

namespace AWSServiceCodeHelper

theorem dictLookup_eq_none_of_not_mem {d : List (String × α)} {k : String}
    (h : k ∉ d.map Prod.fst) : dictLookup d k = none := by
  unfold dictLookup
  rw [List.find?_eq_none.mpr]
  · rfl
  · intro p hp hpk
    exact h (List.mem_map.mpr ⟨p, hp, by simpa using hpk⟩)

theorem strIn_empty_left (s : String) : strIn "" s = true := by
  unfold strIn listInfixOf
  simp [List.isPrefixOf]

end AWSServiceCodeHelper

namespace AWSServiceCodeHelper

/-- C6: `findServiceCode` applies exactly the documented lookup order — (1)
exact case-insensitive match, (2) bidirectional substring match with the first
catalog entry in iteration order winning, (3) alias-table lookup followed by
an exact retry on the resolved display name — and returns absent when none of
the three match: the source function coincides with the staged spec lookup on
every catalog and every input. -/
theorem c6_find_service_code_lookup_order
    (codes : List (String × String)) (name : String) :
    find_service_code codes name = findServiceCode_spec codes name := by
  unfold find_service_code findServiceCode_spec exactMatchStage
    substringMatchStage aliasMatchStage
  by_cases h : codes.isEmpty
  · rw [List.isEmpty_iff] at h
    subst h
    simp only [List.isEmpty_nil, if_true, dictLookup, List.find?_nil,
      Option.map_none', Option.orElse]
    split <;> rename_i heq
    · split <;> rfl
    · rfl
  · simp only [h, Bool.false_eq_true, if_false]
    cases hE : dictLookup codes (pyStrip (pyLower name)) with
    | some code => simp [hE, Option.orElse]
    | none =>
      cases hS : codes.find? (fun p =>
          strIn (pyStrip (pyLower name)) p.1 || strIn p.1 (pyStrip (pyLower name))) with
      | some p => simp [hE, hS, Option.orElse]
      | none =>
        cases hA : dictLookup service_aliases (pyStrip (pyLower name)) with
        | none => simp [hE, hS, hA, Option.orElse]
        | some normalized =>
          by_cases hn : strEmpty normalized <;>
            simp [hE, hS, hA, hn, Option.orElse]

/-- C9 counterexample: a successful remote fetch whose offer index has no
valid entry (here one offer with an empty service name) makes
`refresh_service_codes` return `true` while the resulting catalog is empty,
so "returns true if and only if a non-empty catalog resulted" is false on the
code. -/
theorem c9_refresh_true_with_empty_catalog :
    (refresh_service_codes ⟨.ok [("", "SomeCode")]⟩
        ⟨some fallback_service_codes, some 0, 24⟩ 1).2 = true ∧
    (refresh_service_codes ⟨.ok [("", "SomeCode")]⟩
        ⟨some fallback_service_codes, some 0, 24⟩ 1).1.service_codes =
      some [] := by
  exact ⟨rfl, by decide⟩

/-- C9 (amended): `refresh()` discards the cached catalog and re-runs
population from scratch (remote fetch, falling back to the static table), and
returns whether a catalog object resulted (`service_codes` is not `None`) —
which is always true, even when a successful remote fetch yields an empty
catalog, because a failed fetch installs the non-empty static table and a
successful fetch installs whatever (possibly empty) catalog was built. -/
theorem c9_refresh_amended (env : FetchEnv) (st : HelperState) (now : ℚ) :
    (refresh_service_codes env st now).1 =
      load_service_codes env ⟨none, none, st.cache_duration⟩ now ∧
    (refresh_service_codes env st now).2 =
      ((refresh_service_codes env st now).1.service_codes).isSome ∧
    (refresh_service_codes env st now).2 = true := by
  refine ⟨rfl, rfl, ?_⟩
  unfold refresh_service_codes load_service_codes is_cache_valid
  cases env.fetch <;> simp

/-- C10: an input that is empty after lower-casing and stripping is a
substring of every catalog name, so on a non-empty catalog `findServiceCode`
never returns absent, and — provided the empty string is not itself a catalog
key — the bidirectional substring step returns the code of the first entry in
the catalog's iteration order. -/
theorem c10_empty_input_hits_first_entry
    (codes : List (String × String)) (input : String) (p : String × String)
    (rest : List (String × String))
    (hkey : pyStrip (pyLower input) = "")
    (hcodes : codes = p :: rest) :
    find_service_code codes input ≠ none ∧
    ("" ∉ codes.map Prod.fst → find_service_code codes input = some p.2) := by
  subst hcodes
  have hfind : (p :: rest).find? (fun q =>
      strIn (pyStrip (pyLower input)) q.1 || strIn q.1 (pyStrip (pyLower input))) =
      some p := by
    rw [List.find?_cons_of_pos]
    simp [hkey, strIn_empty_left]
  constructor
  · unfold find_service_code
    cases hE : dictLookup (p :: rest) (pyStrip (pyLower input)) with
    | some c => simp [hE]
    | none => simp [hE, hfind]
  · intro hnot
    have hE : dictLookup (p :: rest) (pyStrip (pyLower input)) = none := by
      rw [hkey]
      exact dictLookup_eq_none_of_not_mem (by simpa using hnot)
    unfold find_service_code
    simp [hE, hfind]

/-- C10 witness: on the concrete static catalog, the whitespace input
resolves through the substring step to the code of the first entry. -/
theorem c10_empty_input_hits_first_entry_witness :
    (pyStrip (pyLower "  ") = "") ∧
    find_service_code fallback_service_codes "  " ≠ none ∧
    find_service_code fallback_service_codes "  " = some "AmazonEC2" := by
  refine ⟨by decide, ?_, ?_⟩
  · exact (c10_empty_input_hits_first_entry fallback_service_codes "  "
      ("amazon ec2", "AmazonEC2") fallback_service_codes.tail (by decide) rfl).1
  · exact (c10_empty_input_hits_first_entry fallback_service_codes "  "
      ("amazon ec2", "AmazonEC2") fallback_service_codes.tail (by decide) rfl).2
      (by decide)

end AWSServiceCodeHelper

/-! ### MCPRequestCache (`mcp_client.py`) -/

/-- Strict lexicographic comparison of char lists (Python string `<`). -/
def listLtB : List Char → List Char → Bool
  | [], [] => false
  | [], _ :: _ => true
  | _ :: _, [] => false
  | a :: as, b :: bs => if a < b then true else if b < a then false else listLtB as bs

theorem listLtB_irrefl (l : List Char) : listLtB l l = false := by
  induction l with
  | nil => rfl
  | cons a as ih => simp [listLtB, ih]

theorem listLtB_conn : ∀ {a b : List Char},
    listLtB a b = false → listLtB b a = false → a = b := by
  intro a
  induction a with
  | nil => intro b h1 _; cases b with
    | nil => rfl
    | cons c cs => simp [listLtB] at h1
  | cons x xs ih =>
    intro b h1 h2
    cases b with
    | nil => simp [listLtB] at h2
    | cons y ys =>
      simp only [listLtB] at h1 h2
      rcases lt_trichotomy x y with h | h | h
      · simp [h] at h1
      · subst h
        simp [lt_irrefl] at h1 h2
        rw [ih h1 h2]
      · simp [h, lt_asymm h] at h2

theorem listLtB_trans : ∀ {a b c : List Char},
    listLtB a b = true → listLtB b c = true → listLtB a c = true := by
  intro a
  induction a with
  | nil =>
    intro b c h1 h2
    cases b with
    | nil => simp [listLtB] at h1
    | cons y ys =>
      cases c with
      | nil => simp [listLtB] at h2
      | cons z zs => simp [listLtB]
  | cons x xs ih =>
    intro b c h1 h2
    cases b with
    | nil => simp [listLtB] at h1
    | cons y ys =>
      cases c with
      | nil => simp [listLtB] at h2
      | cons z zs =>
        simp only [listLtB] at h1 h2 ⊢
        rcases lt_trichotomy x y with hxy | hxy | hxy <;>
          rcases lt_trichotomy y z with hyz | hyz | hyz
        · simp [lt_trans hxy hyz]
        · subst hyz; simp [hxy]
        · simp [hxy, lt_asymm hxy] at h1
          simp [hyz, lt_asymm hyz] at h2
        · subst hxy; simp [hyz]
        · subst hxy; subst hyz
          simp only [lt_irrefl, if_false] at h1 h2 ⊢
          exact ih h1 h2
        · subst hxy
          simp [hyz, lt_asymm hyz] at h2
        · simp [hxy, lt_asymm hxy] at h1
        · simp [hxy, lt_asymm hxy] at h1
        · simp [hxy, lt_asymm hxy] at h1

def strLtB (a b : String) : Bool := listLtB a.data b.data

/-- Python tuple comparison on `(key, value)` string pairs, as `sorted` uses:
lexicographic on the key, then on the value. -/
def pairLeB (p q : String × String) : Bool :=
  strLtB p.1 q.1 || (p.1 == q.1 && (strLtB p.2 q.2 || p.2 == q.2))

def kwRel (p q : String × String) : Prop := pairLeB p q = true

instance : DecidableRel kwRel := fun p q => by unfold kwRel; infer_instance

theorem strLtB_conn {a b : String} (h1 : strLtB a b = false)
    (h2 : strLtB b a = false) : a = b := by
  cases a; cases b
  exact congrArg String.mk (listLtB_conn h1 h2)

instance : IsTotal (String × String) kwRel := by
  constructor
  intro p q
  unfold kwRel pairLeB
  by_cases h1 : strLtB p.1 q.1 = true
  · simp [h1]
  · by_cases h2 : strLtB q.1 p.1 = true
    · simp [h2]
    · have hk : p.1 = q.1 :=
        strLtB_conn (by simpa using h1) (by simpa using h2)
      by_cases h3 : strLtB p.2 q.2 = true
      · simp [h3, hk]
      · by_cases h4 : strLtB q.2 p.2 = true
        · simp [h4, hk]
        · have hv : p.2 = q.2 :=
            strLtB_conn (by simpa using h3) (by simpa using h4)
          simp [hk, hv]

theorem strLtB_irrefl (a : String) : strLtB a a = false := listLtB_irrefl _

theorem strLtB_asymm {a b : String} (h : strLtB a b = true) :
    strLtB b a = false := by
  by_contra hc
  have h2 : strLtB b a = true := by simpa using hc
  have h3 := listLtB_trans h h2
  rw [listLtB_irrefl] at h3
  exact Bool.false_ne_true h3

instance : IsTrans (String × String) kwRel := by
  constructor
  intro p q r hpq hqr
  unfold kwRel pairLeB at *
  simp only [Bool.or_eq_true, Bool.and_eq_true, beq_iff_eq] at hpq hqr ⊢
  rcases hpq with h1 | ⟨hk1, h1⟩
  · rcases hqr with h2 | ⟨hk2, h2⟩
    · exact Or.inl (listLtB_trans h1 h2)
    · exact Or.inl (hk2 ▸ h1)
  · rcases hqr with h2 | ⟨hk2, h2⟩
    · exact Or.inl (hk1 ▸ h2)
    · refine Or.inr ⟨hk1.trans hk2, ?_⟩
      rcases h1 with h1 | h1
      · rcases h2 with h2 | h2
        · exact Or.inl (listLtB_trans h1 h2)
        · exact Or.inl (h2 ▸ h1)
      · rcases h2 with h2 | h2
        · exact Or.inl (h1 ▸ h2)
        · exact Or.inr (h1.trans h2)

instance : IsAntisymm (String × String) kwRel := by
  constructor
  intro p q hpq hqp
  unfold kwRel pairLeB at hpq hqp
  simp only [Bool.or_eq_true, Bool.and_eq_true, beq_iff_eq] at hpq hqp
  rcases hpq with h1 | ⟨hk1, h1⟩
  · rcases hqp with h2 | ⟨hk2, h2⟩
    · exact absurd h2 (by simp [strLtB_asymm h1])
    · exact absurd h1 (by simp [hk2, strLtB_irrefl])
  · rcases hqp with h2 | ⟨hk2, h2⟩
    · exact absurd h2 (by simp [hk1, strLtB_irrefl])
    · have hv : p.2 = q.2 := by
        rcases h1 with h1 | h1
        · rcases h2 with h2 | h2
          · exact absurd h2 (by simp [strLtB_asymm h1])
          · exact h2.symm
        · exact h1
      exact Prod.ext hk1 hv

/-- Python `sorted(kwargs.items())`. -/
def sortKw (l : List (String × String)) : List (String × String) :=
  l.insertionSort kwRel

theorem sortKw_perm (l : List (String × String)) : (sortKw l).Perm l :=
  List.perm_insertionSort kwRel l

theorem sortKw_eq_of_perm {l1 l2 : List (String × String)} (h : l1.Perm l2) :
    sortKw l1 = sortKw l2 :=
  List.eq_of_perm_of_sorted
    ((sortKw_perm l1).trans (h.trans (sortKw_perm l2).symm))
    (List.sorted_insertionSort kwRel l1)
    (List.sorted_insertionSort kwRel l2)

/-- The single-quote character Python `repr` wraps strings in. -/
def quoteC : Char := Char.ofNat 39

/-- The backslash character (excluded so `repr` needs no escaping). -/
def backslashC : Char := Char.ofNat 92

/-- Well-formed argument string: contains neither a single quote nor a
backslash, so Python `repr` is exactly quote–data–quote. -/
def wfStr (s : String) : Prop := quoteC ∉ s.data ∧ backslashC ∉ s.data

instance (s : String) : Decidable (wfStr s) := by unfold wfStr; infer_instance

/-- Python `repr` of a (well-formed) string. -/
def reprStrChars (s : String) : List Char := quoteC :: s.data ++ [quoteC]

/-- Python `repr` of one `(key, value)` item of `kwargs.items()`. -/
def reprItemChars (p : String × String) : List Char :=
  '(' :: reprStrChars p.1 ++ ',' :: ' ' :: reprStrChars p.2 ++ [')']

/-- Continuation of `str(list)` after the first item. -/
def listTailChars : List (String × String) → List Char
  | [] => [']']
  | i :: rest => ',' :: ' ' :: reprItemChars i ++ listTailChars rest

/-- Python `str` of the sorted `kwargs.items()` list. -/
def reprListChars : List (String × String) → List Char
  | [] => ['[', ']']
  | i :: rest => '[' :: reprItemChars i ++ listTailChars rest

/-- Continuation of `str(tuple)` after the first element (two or more
elements). -/
def tupleTailChars : List String → List Char
  | [] => [')']
  | a :: rest => ',' :: ' ' :: reprStrChars a ++ tupleTailChars rest

/-- Python `str` of the positional-argument tuple (note the singleton
trailing comma). -/
def reprTupleChars : List String → List Char
  | [] => ['(', ')']
  | [a] => '(' :: reprStrChars a ++ [',', ')']
  | a :: rest => '(' :: reprStrChars a ++ tupleTailChars rest

theorem append_delim_inj {q : Char} :
    ∀ {s1 s2 r1 r2 : List Char}, q ∉ s1 → q ∉ s2 →
    s1 ++ q :: r1 = s2 ++ q :: r2 → s1 = s2 ∧ r1 = r2 := by
  intro s1
  induction s1 with
  | nil =>
    intro s2 r1 r2 _ h2 heq
    cases s2 with
    | nil => simpa using heq
    | cons y ys =>
      simp only [List.nil_append, List.cons_append, List.cons.injEq] at heq
      exact absurd (heq.1 ▸ List.mem_cons_self y ys) (heq.1 ▸ h2)
  | cons x xs ih =>
    intro s2 r1 r2 h1 h2 heq
    cases s2 with
    | nil =>
      simp only [List.cons_append, List.nil_append, List.cons.injEq] at heq
      exact absurd (List.mem_cons_self x xs) (heq.1 ▸ h1)
    | cons y ys =>
      simp only [List.cons_append, List.cons.injEq] at heq
      obtain ⟨hxy, hrest⟩ := heq
      have := ih (fun hm => h1 (List.mem_cons_of_mem x hm))
        (fun hm => h2 (List.mem_cons_of_mem y hm)) hrest
      exact ⟨by rw [hxy, this.1], this.2⟩

theorem reprStr_inj {s1 s2 : String} {r1 r2 : List Char}
    (h1 : wfStr s1) (h2 : wfStr s2)
    (heq : reprStrChars s1 ++ r1 = reprStrChars s2 ++ r2) :
    s1 = s2 ∧ r1 = r2 := by
  unfold reprStrChars at heq
  simp only [List.cons_append, List.append_assoc, List.singleton_append,
    List.cons.injEq, true_and] at heq
  have := append_delim_inj h1.1 h2.1 heq
  refine ⟨?_, this.2⟩
  cases s1; cases s2
  exact congrArg String.mk this.1

theorem reprItem_inj {p1 p2 : String × String} {r1 r2 : List Char}
    (h1 : wfStr p1.1 ∧ wfStr p1.2) (h2 : wfStr p2.1 ∧ wfStr p2.2)
    (heq : reprItemChars p1 ++ r1 = reprItemChars p2 ++ r2) :
    p1 = p2 ∧ r1 = r2 := by
  unfold reprItemChars at heq
  simp only [List.cons_append, List.append_assoc, List.cons.injEq,
    true_and] at heq
  obtain ⟨hk, hrest⟩ := reprStr_inj h1.1 h2.1 heq
  simp only [List.cons.injEq, true_and] at hrest
  obtain ⟨hv, hrest2⟩ := reprStr_inj h1.2 h2.2 hrest
  simp only [List.cons.injEq, true_and] at hrest2
  exact ⟨Prod.ext hk hv, hrest2⟩

/-- Elementwise well-formedness of a kwargs list. -/
def wfKw (l : List (String × String)) : Prop :=
  ∀ p ∈ l, wfStr p.1 ∧ wfStr p.2

/-- Elementwise well-formedness of a positional-argument list. -/
def wfArgs (l : List String) : Prop := ∀ s ∈ l, wfStr s

instance (l : List (String × String)) : Decidable (wfKw l) := by
  unfold wfKw; infer_instance

instance (l : List String) : Decidable (wfArgs l) := by
  unfold wfArgs; infer_instance

theorem listTail_inj : ∀ {t1 t2 : List (String × String)} {r1 r2 : List Char},
    wfKw t1 → wfKw t2 →
    listTailChars t1 ++ r1 = listTailChars t2 ++ r2 → t1 = t2 ∧ r1 = r2 := by
  intro t1
  induction t1 with
  | nil =>
    intro t2 r1 r2 _ _ heq
    cases t2 with
    | nil => simpa using heq
    | cons i t =>
      simp [listTailChars, reprItemChars] at heq
  | cons i t ih =>
    intro t2 r1 r2 h1 h2 heq
    cases t2 with
    | nil => simp [listTailChars, reprItemChars] at heq
    | cons j u =>
      simp only [listTailChars, List.cons_append, List.append_assoc,
        List.cons.injEq, true_and] at heq
      obtain ⟨hij, hrest⟩ := reprItem_inj (h1 i (by simp)) (h2 j (by simp)) heq
      obtain ⟨htu, hr⟩ := ih (fun p hp => h1 p (by simp [hp]))
        (fun p hp => h2 p (by simp [hp])) hrest
      exact ⟨by rw [hij, htu], hr⟩

theorem reprList_inj {t1 t2 : List (String × String)} {r1 r2 : List Char}
    (h1 : wfKw t1) (h2 : wfKw t2)
    (heq : reprListChars t1 ++ r1 = reprListChars t2 ++ r2) :
    t1 = t2 ∧ r1 = r2 := by
  cases t1 with
  | nil =>
    cases t2 with
    | nil => simpa [reprListChars] using heq
    | cons j u => simp [reprListChars, reprItemChars] at heq
  | cons i t =>
    cases t2 with
    | nil => simp [reprListChars, reprItemChars] at heq
    | cons j u =>
      simp only [reprListChars, List.cons_append, List.append_assoc,
        List.cons.injEq, true_and] at heq
      obtain ⟨hij, hrest⟩ := reprItem_inj (h1 i (by simp)) (h2 j (by simp)) heq
      obtain ⟨htu, hr⟩ := listTail_inj (fun p hp => h1 p (by simp [hp]))
        (fun p hp => h2 p (by simp [hp])) hrest
      exact ⟨by rw [hij, htu], hr⟩

theorem tupleTail_inj : ∀ {t1 t2 : List String} {r1 r2 : List Char},
    wfArgs t1 → wfArgs t2 →
    tupleTailChars t1 ++ r1 = tupleTailChars t2 ++ r2 → t1 = t2 ∧ r1 = r2 := by
  intro t1
  induction t1 with
  | nil =>
    intro t2 r1 r2 _ _ heq
    cases t2 with
    | nil => simpa using heq
    | cons a t => simp [tupleTailChars, reprStrChars] at heq
  | cons a t ih =>
    intro t2 r1 r2 h1 h2 heq
    cases t2 with
    | nil => simp [tupleTailChars, reprStrChars] at heq
    | cons b u =>
      simp only [tupleTailChars, List.cons_append, List.append_assoc,
        List.cons.injEq, true_and] at heq
      obtain ⟨hab, hrest⟩ := reprStr_inj (h1 a (by simp)) (h2 b (by simp)) heq
      obtain ⟨htu, hr⟩ := ih (fun s hs => h1 s (by simp [hs]))
        (fun s hs => h2 s (by simp [hs])) hrest
      exact ⟨by rw [hab, htu], hr⟩

theorem reprTuple_inj {t1 t2 : List String} {r1 r2 : List Char}
    (h1 : wfArgs t1) (h2 : wfArgs t2)
    (heq : reprTupleChars t1 ++ r1 = reprTupleChars t2 ++ r2) :
    t1 = t2 ∧ r1 = r2 := by
  match t1, t2 with
  | [], [] => simpa [reprTupleChars] using heq
  | [], [b] =>
    simp [reprTupleChars, reprStrChars] at heq
    exact absurd heq.1 (by decide)
  | [], b :: c :: u =>
    simp [reprTupleChars, reprStrChars, tupleTailChars] at heq
    exact absurd heq.1 (by decide)
  | [a], [] =>
    simp [reprTupleChars, reprStrChars] at heq
    exact absurd heq.1 (by decide)
  | a :: c :: t, [] =>
    simp [reprTupleChars, reprStrChars, tupleTailChars] at heq
    exact absurd heq.1 (by decide)
  | [a], [b] =>
    simp only [reprTupleChars, List.cons_append, List.append_assoc,
      List.cons.injEq, true_and] at heq
    obtain ⟨hab, hrest⟩ := reprStr_inj (h1 a (by simp)) (h2 b (by simp)) heq
    simp only [List.cons.injEq, true_and] at hrest
    exact ⟨by rw [hab], hrest⟩
  | [a], b :: c :: u =>
    simp only [reprTupleChars, tupleTailChars, List.cons_append,
      List.append_assoc, List.cons.injEq, true_and] at heq
    obtain ⟨hab, hrest⟩ := reprStr_inj (h1 a (by simp)) (h2 b (by simp)) heq
    simp at hrest
  | a :: c :: t, [b] =>
    simp only [reprTupleChars, tupleTailChars, List.cons_append,
      List.append_assoc, List.cons.injEq, true_and] at heq
    obtain ⟨hab, hrest⟩ := reprStr_inj (h1 a (by simp)) (h2 b (by simp)) heq
    simp at hrest
  | a :: c :: t, b :: d :: u =>
    simp only [reprTupleChars, List.cons_append, List.append_assoc,
      List.cons.injEq, true_and] at heq
    obtain ⟨hab, hrest⟩ := reprStr_inj (h1 a (by simp)) (h2 b (by simp)) heq
    obtain ⟨htu, hr⟩ := @tupleTail_inj (c :: t) (d :: u) r1 r2
      (fun s hs => h1 s (by simp [hs])) (fun s hs => h2 s (by simp [hs])) hrest
    exact ⟨by rw [hab, htu], hr⟩

/-- `_generate_cache_key`: `f"{method}:{str(args)}:{str(sorted(kwargs.items()))}"`,
with the SHA-256 digest modelled as the identity on the serialized string
(the spec treats the digest as collision-resistant, §7(d)). -/
def generate_cache_key (method : String) (args : List String)
    (kwargs : List (String × String)) : String :=
  ⟨method.data ++ ':' :: reprTupleChars args ++
    ':' :: reprListChars (sortKw kwargs)⟩

theorem wfKw_sortKw {k : List (String × String)} (h : wfKw k) :
    wfKw (sortKw k) :=
  fun p hp => h p ((sortKw_perm k).mem_iff.mp hp)

theorem generate_cache_key_eq_iff (m : String)
    (a1 a2 : List String) (k1 k2 : List (String × String))
    (hwa1 : wfArgs a1) (hwa2 : wfArgs a2) (hwk1 : wfKw k1) (hwk2 : wfKw k2) :
    generate_cache_key m a1 k1 = generate_cache_key m a2 k2 ↔
      (a1 = a2 ∧ k1.Perm k2) := by
  constructor
  · intro h
    unfold generate_cache_key at h
    replace h := congrArg String.data h
    simp only [List.append_assoc, List.cons_append] at h
    have h2 := @List.append_cancel_left _ m.data _ _ h
    rw [List.cons.injEq] at h2
    obtain ⟨ha, hrest⟩ := reprTuple_inj hwa1 hwa2 h2.2
    rw [List.cons.injEq] at hrest
    have h3 : reprListChars (sortKw k1) ++ ([] : List Char) =
        reprListChars (sortKw k2) ++ [] := by
      simpa using hrest.2
    obtain ⟨hsorted, _⟩ := reprList_inj (wfKw_sortKw hwk1) (wfKw_sortKw hwk2) h3
    exact ⟨ha, (sortKw_perm k1).symm.trans (hsorted ▸ sortKw_perm k2)⟩
  · rintro ⟨rfl, hperm⟩
    unfold generate_cache_key
    rw [sortKw_eq_of_perm hperm]

/-- One cache entry of `MCPRequestCache`. -/
structure CacheEntry (α : Type) where
  value : α
  expires_at : ℚ
  created_at : ℚ
  method : String
deriving Repr, DecidableEq

/-- `MCPRequestCache`: the entry dict plus the statistics counters kept in
`self.stats` (the derived hit-rate of `get_stats` is not modelled). -/
structure MCPRequestCache (α : Type) where
  cache : List (String × CacheEntry α)
  default_ttl : ℚ
  hits : ℕ
  misses : ℕ
  total_requests : ℕ
  cache_size : ℕ
deriving Repr, DecidableEq

/-- `MCPRequestCache.__init__(default_ttl)`. -/
def MCPRequestCache.init (default_ttl : ℚ) : MCPRequestCache α :=
  ⟨[], default_ttl, 0, 0, 0, 0⟩

/-- `MCPRequestCache.get`: count the request, then hit (and count) if a
non-expired entry exists; delete the entry on the read that discovers it
expired; count a miss otherwise. -/
def MCPRequestCache.get (c : MCPRequestCache α) (now : ℚ) (method : String)
    (args : List String) (kwargs : List (String × String)) :
    Option α × MCPRequestCache α :=
  let key := generate_cache_key method args kwargs
  let c1 := { c with total_requests := c.total_requests + 1 }
  match dictLookup c1.cache key with
  | some entry =>
    if now < entry.expires_at then
      (some entry.value, { c1 with hits := c1.hits + 1 })
    else
      let cache2 := c1.cache.filter (fun p => p.1 != key)
      (none, { c1 with cache := cache2, cache_size := cache2.length,
                       misses := c1.misses + 1 })
  | none => (none, { c1 with misses := c1.misses + 1 })

/-- `MCPRequestCache.set`: store the value under the derived key with
`ttl` seconds (default TTL when `ttl` is `None`). -/
def MCPRequestCache.set (c : MCPRequestCache α) (now : ℚ) (method : String)
    (value : α) (ttl : Option ℚ) (args : List String)
    (kwargs : List (String × String)) : MCPRequestCache α :=
  let key := generate_cache_key method args kwargs
  let expires_at := qadd now (ttl.getD c.default_ttl)
  let cache2 := dictInsert c.cache key ⟨value, expires_at, now, method⟩
  { c with cache := cache2, cache_size := cache2.length }

theorem dictLookup_append_self {d : List (String × α)} {k : String} (v : α)
    (h : (d.find? (fun p => p.1 = k)).isSome = false) :
    dictLookup (d ++ [(k, v)]) k = some v := by
  induction d with
  | nil => simp [dictLookup]
  | cons p t ih =>
    rw [List.find?_cons] at h
    by_cases hpk : p.1 = k
    · simp [hpk] at h
    · rw [decide_eq_false hpk] at h
      simp only [List.cons_append, dictLookup, List.find?_cons,
        decide_eq_false hpk]
      exact ih h

theorem dictLookup_map_overwrite {d : List (String × α)} {k : String} (v : α)
    (h : (d.find? (fun p => p.1 = k)).isSome = true) :
    dictLookup (d.map (fun p => if p.1 = k then (k, v) else p)) k = some v := by
  induction d with
  | nil => simp at h
  | cons p t ih =>
    by_cases hpk : p.1 = k
    · simp [dictLookup, hpk]
    · rw [List.find?_cons] at h
      rw [decide_eq_false hpk] at h
      simp only [List.map_cons, hpk, if_false, dictLookup, List.find?_cons,
        decide_eq_false hpk]
      exact ih h

theorem dictInsert_lookup_self (d : List (String × α)) (k : String) (v : α) :
    dictLookup (dictInsert d k v) k = some v := by
  unfold dictInsert
  by_cases h : (d.find? (fun p => p.1 = k)).isSome
  · simp only [h, if_true]
    exact dictLookup_map_overwrite v h
  · simp only [h, if_false]
    exact dictLookup_append_self v
      (by simp only [Bool.not_eq_true] at h; exact h)

/-- C5: with identical operation name, a `get` after a `set` with equal
argument values — regardless of keyword ordering — derives the same key and
returns the stored value, while any differing argument value derives a
different key, so the `get` misses: (i) keys collide exactly when the
positional arguments are equal and the keyword arguments are a permutation of
one another; (ii) `get` immediately after `set` with permuted keywords hits;
(iii) `get` after `set` into a fresh cache with different argument values
misses.  Argument strings are assumed quote- and backslash-free so that the
modelled Python `repr` serialization is exact. -/
theorem c5_cache_key_stability (m : String)
    (a1 a2 : List String) (k1 k2 : List (String × String))
    (hwa1 : wfArgs a1) (hwa2 : wfArgs a2) (hwk1 : wfKw k1) (hwk2 : wfKw k2) :
    (generate_cache_key m a1 k1 = generate_cache_key m a2 k2 ↔
      (a1 = a2 ∧ k1.Perm k2)) ∧
    (∀ (α : Type) (c : MCPRequestCache α) (now : ℚ) (v : α),
      a1 = a2 → k1.Perm k2 → 0 < c.default_ttl →
      ((c.set now m v none a1 k1).get now m a2 k2).1 = some v) ∧
    (∀ (α : Type) (ttl : ℚ) (now : ℚ) (v : α),
      ¬(a1 = a2 ∧ k1.Perm k2) →
      (((MCPRequestCache.init ttl).set now m v none a1 k1).get
          now m a2 k2).1 = none) := by
  have hiff := generate_cache_key_eq_iff m a1 a2 k1 k2 hwa1 hwa2 hwk1 hwk2
  refine ⟨hiff, ?_, ?_⟩
  · intro α c now v ha hk httl
    have hkey : generate_cache_key m a2 k2 = generate_cache_key m a1 k1 :=
      (generate_cache_key_eq_iff m a2 a1 k2 k1 hwa2 hwa1 hwk2 hwk1).mpr
        ⟨ha.symm, hk.symm⟩
    unfold MCPRequestCache.get MCPRequestCache.set
    simp only [hkey, dictInsert_lookup_self]
    rw [if_pos]
    rw [Option.getD, qadd_eq]
    exact lt_add_of_pos_right now httl
  · intro α ttl now v hne
    have hkey : ¬ generate_cache_key m a1 k1 = generate_cache_key m a2 k2 :=
      fun h => hne (hiff.mp h)
    unfold MCPRequestCache.get MCPRequestCache.set MCPRequestCache.init
    simp [dictInsert, dictLookup, List.find?, hkey, Ne.symm hkey]

theorem c5_cache_key_stability_witness :
    (generate_cache_key "price" ["EC2"] [("os", "linux"), ("region", "us-east-1")] =
      generate_cache_key "price" ["EC2"] [("region", "us-east-1"), ("os", "linux")]) ∧
    ((((MCPRequestCache.init (mkRat 300 1)).set 0 "price" (7 : ℕ) none
        ["EC2"] [("os", "linux"), ("region", "us-east-1")]).get 0 "price"
        ["EC2"] [("region", "us-east-1"), ("os", "linux")]).1 = some 7) ∧
    ((((MCPRequestCache.init (mkRat 300 1)).set 0 "price" (7 : ℕ) none
        ["EC2"] [("region", "us-east-1")]).get 0 "price"
        ["EC2"] [("region", "us-west-2")]).1 = none) := by
  refine ⟨?_, ?_, ?_⟩
  · exact (c5_cache_key_stability "price" ["EC2"] ["EC2"]
      [("os", "linux"), ("region", "us-east-1")]
      [("region", "us-east-1"), ("os", "linux")]
      (by decide) (by decide) (by decide) (by decide)).1.mpr ⟨rfl, by decide⟩
  · exact (c5_cache_key_stability "price" ["EC2"] ["EC2"]
      [("os", "linux"), ("region", "us-east-1")]
      [("region", "us-east-1"), ("os", "linux")]
      (by decide) (by decide) (by decide) (by decide)).2.1 ℕ
      (MCPRequestCache.init (mkRat 300 1)) 0 7 rfl (by decide) (by decide)
  · exact (c5_cache_key_stability "price" ["EC2"] ["EC2"]
      [("region", "us-east-1")] [("region", "us-west-2")]
      (by decide) (by decide) (by decide) (by decide)).2.2 ℕ
      (mkRat 300 1) 0 7 (by decide)

/-! ### MCP client: tool values, fallback handlers, gateway (`mcp_client.py`) -/

/-- A single-quote as a string (for building Python `repr` output). -/
def squo : String := ⟨[quoteC]⟩

/-- Values flowing through MCP tool results, modelled as a JSON-like type
(Python dict insertion order preserved). -/
inductive MCPVal where
  | MStr (s : String)
  | MNum (q : ℚ)
  | MList (l : List MCPVal)
  | MDict (d : List (String × MCPVal))
deriving Repr

/-- Decimal-or-fraction rendering of a rational, standing in for Python's
`str()` of a number (the embedded theorems never inspect this text). -/
def ratRepr (q : ℚ) : String :=
  if q.den = 1 then toString q.num else toString q.num ++ "/" ++ toString q.den

mutual

/-- Python `repr` for MCP values (strings assumed quote/backslash-free). -/
def pyReprV : MCPVal → String
  | .MStr s => squo ++ s ++ squo
  | .MNum q => ratRepr q
  | .MList l => "[" ++ String.intercalate ", " (pyReprVList l) ++ "]"
  | .MDict d => "\x7b" ++ String.intercalate ", " (pyReprVDict d) ++ "\x7d"

def pyReprVList : List MCPVal → List String
  | [] => []
  | v :: t => pyReprV v :: pyReprVList t

def pyReprVDict : List (String × MCPVal) → List String
  | [] => []
  | p :: t => (squo ++ p.1 ++ squo ++ ": " ++ pyReprV p.2) :: pyReprVDict t

end

/-- Python `str()` for MCP values. -/
def pyStr : MCPVal → String
  | .MStr s => s
  | v => pyReprV v

/-- Python truthiness of an MCP value. -/
def pyTruthy : MCPVal → Bool
  | .MStr s => !strEmpty s
  | .MNum q => decide (q ≠ 0)
  | .MList l => !l.isEmpty
  | .MDict d => !d.isEmpty

/-- Python truthiness of an optional MCP value (`None` is falsy). -/
def optTruthy : Option MCPVal → Bool
  | some v => pyTruthy v
  | none => false

/-- Keyword parameters passed through `**kwargs` to MCP tool calls; a field
that a fallback handler requires but the caller did not pass raises
`TypeError` at the call, which the dispatching handler catches. -/
structure ToolParams where
  service_code : Option String := none
  region : Option String := none
  query : Option String := none
  services : Option (List String) := none
  requirements : Option String := none
  project_path : Option String := none
deriving Repr

namespace MCPClientService

/-- Monthly figures of the `base_costs` table of
`_fallback_cost_analysis_api` (each source entry also carries an hourly or
unit rate that the function never reads; only `cost_info["monthly"]` is
consumed). -/
def fallback_api_base_costs : List (String × ℚ) :=
  [("AmazonEC2", mkRat 335 10),
   ("AmazonS3", mkRat 15 1),
   ("AmazonRDS", mkRat 83 1),
   ("AWSLambda", mkRat 12 1),
   ("AmazonDynamoDB", mkRat 25 1)]

/-- `_fallback_cost_analysis_api(service_code, region)`. -/
def fallback_cost_analysis_api (p : ToolParams) : Option MCPVal :=
  match p.service_code, p.region with
  | some sc, some r =>
    let monthly := (dictLookup fallback_api_base_costs sc).getD (mkRat 36 1)
    some (.MDict
      [("service_code", .MStr sc),
       ("region", .MStr r),
       ("pricing", .MDict
         [("monthly_estimate", .MNum monthly),
          ("currency", .MStr "USD"),
          ("pricing_model", .MStr "On-Demand")]),
       ("note", .MStr "フォールバック値（実際のAPIデータではありません）"),
       ("source", .MStr "fallback_calculation")])
  | _, _ => none

/-- `_fallback_cost_analysis_web(query)`. -/
def fallback_cost_analysis_web (p : ToolParams) : Option MCPVal :=
  match p.query with
  | some q =>
    some (.MDict
      [("query", .MStr q),
       ("analysis", .MStr (squo ++ q ++ squo ++
         " に関するコスト分析：基本構成での月額は約$50-200の範囲と推定されます。正確な料金は使用量、リージョン、インスタンスタイプによって大きく変動します。AWS料金計算ツールでの詳細見積もりをお勧めします。")),
       ("recommendations", .MList
         [.MStr "Reserved Instancesで20-75%の節約が可能",
          .MStr "Savings Plansによる柔軟な割引適用",
          .MStr "適切なインスタンスサイズの選択"]),
       ("note", .MStr "フォールバック情報（実際のWeb検索結果ではありません）"),
       ("source", .MStr "fallback_analysis")])
  | none => none

/-- Per-service cost guess of `_fallback_generate_cost_report`. -/
def reportServiceCost (s : String) : ℚ :=
  if strIn "EC2" (pyUpper s) then mkRat 85 1
  else if strIn "S3" (pyUpper s) then mkRat 20 1
  else if strIn "RDS" (pyUpper s) then mkRat 150 1
  else if strIn "LAMBDA" (pyUpper s) then mkRat 25 1
  else mkRat 50 1

/-- `_fallback_generate_cost_report(services, region)`. -/
def fallback_generate_cost_report (p : ToolParams) : Option MCPVal :=
  match p.services, p.region with
  | some services, some region =>
    let service_costs := services.map (fun s => (s, reportServiceCost s))
    let total := service_costs.foldl (fun acc sc => qadd acc sc.2) (mkRat 0 1)
    some (.MDict
      [("services", .MList (services.map .MStr)),
       ("region", .MStr region),
       ("total_monthly_cost", .MNum total),
       ("service_breakdown", .MDict (service_costs.map fun sc => (sc.1, MCPVal.MNum sc.2))),
       ("currency", .MStr "USD"),
       ("report_summary", .MStr ("総月額コスト: $" ++ ratRepr total ++ " USD (" ++ region ++ ")")),
       ("note", .MStr "フォールバック推定値"),
       ("source", .MStr "fallback_report")])
  | _, _ => none

/-- The `common_docs` table of `_fallback_aws_documentation`. -/
def fallback_common_docs : List (String × String) :=
  [("ec2", "Amazon EC2は、AWS クラウドでスケーラブルなコンピューティング容量を提供します。"),
   ("s3", "Amazon S3は、業界をリードするスケーラビリティ、データ可用性、セキュリティ、パフォーマンスを提供するオブジェクトストレージサービスです。"),
   ("rds", "Amazon RDSでは、クラウドでリレーショナルデータベースを簡単にセットアップ、運用、スケールできます。"),
   ("lambda", "AWS Lambdaは、サーバーをプロビジョニングまたは管理することなく、コードを実行できるコンピューティングサービスです。")]

/-- `_fallback_aws_documentation(query)`. -/
def fallback_aws_documentation (p : ToolParams) : Option MCPVal :=
  match p.query with
  | some q =>
    let description :=
      match fallback_common_docs.find? (fun kd => strIn kd.1 (pyLower q)) with
      | some kd => kd.2
      | none => "AWS公式ドキュメントを参照してください。"
    some (.MDict
      [("query", .MStr q),
       ("description", .MStr description),
       ("source", .MStr "fallback_documentation"),
       ("note", .MStr "フォールバック情報")])
  | none => none

/-- The VPC Terraform template of `_fallback_terraform_generation`
(braces written as `\x7b`/`\x7d`). -/
def fallbackTerraformVpcTemplate : String :=
  "\n# VPC基本構成\nresource \"aws_vpc\" \"main\" \x7b\n  cidr_block           = \"10.0.0.0/16\"\n  enable_dns_hostnames = true\n  enable_dns_support   = true\n  \n  tags = \x7b\n    Name = \"main-vpc\"\n  \x7d\n\x7d\n\nresource \"aws_subnet\" \"public\" \x7b\n  vpc_id                  = aws_vpc.main.id\n  cidr_block              = \"10.0.1.0/24\"\n  map_public_ip_on_launch = true\n  \n  tags = \x7b\n    Name = \"public-subnet\"\n  \x7d\n\x7d\n"

/-- `_fallback_terraform_generation(requirements)`. -/
def fallback_terraform_generation (p : ToolParams) : Option MCPVal :=
  match p.requirements with
  | some requirements =>
    let code :=
      if strIn "vpc" (pyLower requirements) then fallbackTerraformVpcTemplate
      else "# 詳細な要件を指定してください。"
    some (.MDict
      [("requirements", .MStr requirements),
       ("terraform_code", .MStr code),
       ("note", .MStr "フォールバックテンプレート"),
       ("source", .MStr "fallback_terraform")])
  | none => none

/-- `_handle_fallback_tool_call`: duck-typed dispatch on the
`(serverName, toolName)` pair; `None` both for an unmapped pair and when a
handler raises (missing required kwarg). -/
def handle_fallback_tool_call (server_name tool_name : String)
    (p : ToolParams) : Option MCPVal :=
  if server_name = "awslabs.cost-analysis-mcp-server" then
    if tool_name = "get_pricing_from_api" then fallback_cost_analysis_api p
    else if tool_name = "get_pricing_from_web" then fallback_cost_analysis_web p
    else if tool_name = "generate_cost_report" then fallback_generate_cost_report p
    else none
  else if server_name = "awslabs.aws-documentation-mcp-server" then
    if tool_name = "search_documentation" then fallback_aws_documentation p
    else none
  else if server_name = "awslabs.terraform-mcp-server" then
    if tool_name = "generate_terraform" then fallback_terraform_generation p
    else none
  else none

end MCPClientService

namespace MCPClientService

/-- One entry of the `mcpServers` configuration (only the `disabled` flag is
read on the runtime-unavailable path; launch command, args and env are
consumed solely by the real-connection path, which is not modelled). -/
structure MCPServerConfig where
  disabled : Bool := false
deriving Repr, DecidableEq

/-- The per-server record kept in `self.mcp_tools` (the fields the claims
observe). -/
structure ServerInfo where
  initialized : Bool
  fallback_mode : Bool
deriving Repr, DecidableEq

/-- `initialize_mcp_servers` on the `MCP_AVAILABLE = False` path: every
non-disabled configured server is recorded with `initialized = True` and
`fallback_mode = True`; `self.mcp_client` stays `None`. -/
def initialize_mcp_servers_fallback
    (config : List (String × MCPServerConfig)) : List (String × ServerInfo) :=
  config.foldl
    (fun acc p =>
      if p.2.disabled then acc else dictInsert acc p.1 ⟨true, true⟩)
    []

/-- The boolean `initialize_mcp_servers` returns on that path
(`len(self.mcp_tools) > 0`). -/
def initialize_mcp_servers_fallback_ok
    (config : List (String × MCPServerConfig)) : Bool :=
  !(initialize_mcp_servers_fallback config).isEmpty

/-- `get_available_tools`: the names of servers with `initialized = True`. -/
def get_available_tools (mcp_tools : List (String × ServerInfo)) :
    List String :=
  (mcp_tools.filter (fun p => p.2.initialized)).map (·.1)

/-- One tool exposed by the connector, with its (optional) owning-server
metadata and the behaviour of `ainvoke` on the given parameters: a result, or
an exception. -/
structure ToolDesc where
  name : String
  server_name : Option String
  invokeResult : Except Unit (Option MCPVal)

/-- Gateway-visible state: whether `self.mcp_client` is set, the
`self.mcp_tools` registry, and the behaviour of `mcp_client.get_tools()`. -/
structure ClientEnv where
  mcp_client_present : Bool
  mcp_tools : List (String × ServerInfo)
  tools : Except Unit (List ToolDesc)

/-- The tool-resolution loop of `call_mcp_tool_async`: a name-and-server
match wins immediately (`break`); otherwise the first name match is kept as
the candidate. -/
def resolveToolAux (tools : List ToolDesc) (tool_name server_name : String)
    (target : Option ToolDesc) : Option ToolDesc :=
  match tools with
  | [] => target
  | t :: ts =>
    if t.name = tool_name then
      if t.server_name = some server_name then some t
      else resolveToolAux ts tool_name server_name
        (target.orElse fun _ => some t)
    else resolveToolAux ts tool_name server_name target

/-- `call_mcp_tool_async`: `None` when the client is not initialized; the
fallback handler when the server is marked fallback-mode; `None` for an
unknown server; then tool resolution and invocation, with the `except` arm
routing only the two pricing tools to the fallback handler.  The
tool-not-found retry of the source (lines 485-488) sits after an
unconditional `return None` and is therefore dead code, faithfully absent
here. -/
def call_mcp_tool_async (env : ClientEnv) (server_name tool_name : String)
    (p : ToolParams) : Option MCPVal :=
  if !env.mcp_client_present then none
  else if (match dictLookup env.mcp_tools server_name with
           | some si => si.fallback_mode
           | none => false) then
    handle_fallback_tool_call server_name tool_name p
  else if (dictLookup env.mcp_tools server_name).isNone then none
  else
    match env.tools with
    | .error _ =>
      if tool_name = "get_pricing_from_api" ∨ tool_name = "get_pricing_from_web"
      then handle_fallback_tool_call server_name tool_name p
      else none
    | .ok tools =>
      match resolveToolAux tools tool_name server_name none with
      | none => none
      | some t =>
        match t.invokeResult with
        | .ok r => r
        | .error _ =>
          if tool_name = "get_pricing_from_api" ∨
              tool_name = "get_pricing_from_web"
          then handle_fallback_tool_call server_name tool_name p
          else none

/-- `call_mcp_tool` (synchronous wrapper): runs the coroutine on a fresh
event loop; its own `except` arm is unreachable because the coroutine never
raises, so the wrapper coincides with the async function. -/
def call_mcp_tool (env : ClientEnv) (server_name tool_name : String)
    (p : ToolParams) : Option MCPVal :=
  call_mcp_tool_async env server_name tool_name p

end MCPClientService

theorem dictInsert_mem {d : List (String × α)} {k : String} {v : α} :
    ∀ p ∈ dictInsert d k v, p = (k, v) ∨ p ∈ d := by
  intro p hp
  unfold dictInsert at hp
  split at hp
  · rw [List.mem_map] at hp
    obtain ⟨q, hq, hqe⟩ := hp
    by_cases hqk : q.1 = k
    · simp only [hqk, if_true] at hqe
      exact Or.inl hqe.symm
    · simp only [hqk, if_false] at hqe
      exact Or.inr (hqe ▸ hq)
  · rw [List.mem_append] at hp
    rcases hp with hp | hp
    · exact Or.inr hp
    · simp at hp
      exact Or.inl (by simp [hp])

theorem dictInsert_keys_cases (d : List (String × α)) (k : String) (v : α) :
    (dictInsert d k v).map Prod.fst = d.map Prod.fst ∨
    (dictInsert d k v).map Prod.fst = d.map Prod.fst ++ [k] := by
  unfold dictInsert
  split
  · left
    rw [List.map_map]
    apply List.map_congr_left
    intro p _
    by_cases hpk : p.1 = k <;> simp [hpk, Function.comp]
  · right
    simp

theorem dictInsert_key_self_mem (d : List (String × α)) (k : String) (v : α) :
    k ∈ (dictInsert d k v).map Prod.fst := by
  unfold dictInsert
  split <;> rename_i h
  · rw [List.find?_isSome] at h
    obtain ⟨p, hp, hpk⟩ := h
    rw [List.map_map]
    rw [List.mem_map]
    refine ⟨p, hp, ?_⟩
    simp only [decide_eq_true_eq] at hpk
    simp [Function.comp, hpk]
  · simp

theorem dictInsert_keys_mono {d : List (String × α)} {k' : String}
    (k : String) (v : α) (h : k' ∈ d.map Prod.fst) :
    k' ∈ (dictInsert d k v).map Prod.fst := by
  rcases dictInsert_keys_cases d k v with hc | hc <;> rw [hc] <;> simp [h]

namespace MCPClientService

theorem init_fallback_values (config : List (String × MCPServerConfig)) :
    ∀ p ∈ initialize_mcp_servers_fallback config,
      p.2 = ({ initialized := true, fallback_mode := true } : ServerInfo) := by
  unfold initialize_mcp_servers_fallback
  suffices h : ∀ (acc : List (String × ServerInfo)),
      (∀ p ∈ acc, p.2 = ({ initialized := true, fallback_mode := true } : ServerInfo)) →
      ∀ p ∈ config.foldl
        (fun acc p => if p.2.disabled then acc else dictInsert acc p.1 ⟨true, true⟩)
        acc,
      p.2 = ({ initialized := true, fallback_mode := true } : ServerInfo) by
    exact h [] (by simp)
  induction config with
  | nil => intro acc hacc p hp; exact hacc p hp
  | cons c t ih =>
    intro acc hacc p hp
    rw [List.foldl_cons] at hp
    by_cases hd : c.2.disabled
    · simp only [hd, if_true] at hp
      exact ih acc hacc p hp
    · simp only [hd, if_false] at hp
      refine ih _ ?_ p hp
      intro q hq
      rcases dictInsert_mem q hq with hq' | hq'
      · rw [hq']
      · exact hacc q hq'

theorem init_fallback_keys_mono (config : List (String × MCPServerConfig))
    (acc : List (String × ServerInfo)) {k : String}
    (h : k ∈ acc.map Prod.fst) :
    k ∈ (config.foldl
      (fun acc p => if p.2.disabled then acc else dictInsert acc p.1 ⟨true, true⟩)
      acc).map Prod.fst := by
  induction config generalizing acc with
  | nil => exact h
  | cons c t ih =>
    rw [List.foldl_cons]
    cases hd : c.2.disabled with
    | true =>
      simp only [hd, if_true]
      exact ih acc h
    | false =>
      simp only [hd, Bool.false_eq_true, if_false]
      exact ih _ (dictInsert_keys_mono c.1 ⟨true, true⟩ h)

theorem init_fallback_mem (config : List (String × MCPServerConfig))
    (n : String) (c : MCPServerConfig) (hmem : (n, c) ∈ config)
    (hd : c.disabled = false) :
    n ∈ (initialize_mcp_servers_fallback config).map Prod.fst := by
  unfold initialize_mcp_servers_fallback
  suffices h : ∀ (acc : List (String × ServerInfo)),
      n ∈ (config.foldl
        (fun acc p => if p.2.disabled then acc else dictInsert acc p.1 ⟨true, true⟩)
        acc).map Prod.fst by
    exact h []
  induction config with
  | nil => simp at hmem
  | cons q t ih =>
    intro acc
    rw [List.foldl_cons]
    rcases List.mem_cons.mp hmem with heq | hmem'
    · subst heq
      simp only [hd, Bool.false_eq_true, if_false]
      exact init_fallback_keys_mono t _
        (dictInsert_key_self_mem acc n ⟨true, true⟩)
    · cases hqd : q.2.disabled with
      | true =>
        simp only [hqd, if_true]
        exact ih hmem' acc
      | false =>
        simp only [hqd, Bool.false_eq_true, if_false]
        exact ih hmem' _

theorem init_fallback_all_disabled (config : List (String × MCPServerConfig))
    (h : ∀ p ∈ config, p.2.disabled = true) :
    initialize_mcp_servers_fallback config = [] := by
  unfold initialize_mcp_servers_fallback
  induction config with
  | nil => rfl
  | cons c t ih =>
    rw [List.foldl_cons]
    rw [h c (by simp)]
    simp only [if_true]
    exact ih (fun p hp => h p (by simp [hp]))

theorem available_eq_keys {m : List (String × ServerInfo)}
    (h : ∀ p ∈ m, p.2.initialized = true) :
    get_available_tools m = m.map Prod.fst := by
  unfold get_available_tools
  rw [List.filter_eq_self.mpr]
  intro p hp
  exact h p hp

/-- C8: when the tool-invocation runtime is unavailable, initialization marks
every non-disabled configured server as `initialized` with the
`fallback_mode` flag (and registers nothing else), so `get_available_tools`
is non-empty — and `initialize_mcp_servers` reports success — exactly when at
least one non-disabled server is configured. -/
theorem c8_fallback_mode_registry (config : List (String × MCPServerConfig)) :
    (∀ p ∈ initialize_mcp_servers_fallback config,
        p.2.initialized = true ∧ p.2.fallback_mode = true) ∧
    (∀ n c, (n, c) ∈ config → c.disabled = false →
        n ∈ (initialize_mcp_servers_fallback config).map Prod.fst) ∧
    (get_available_tools (initialize_mcp_servers_fallback config) ≠ [] ↔
        ∃ p ∈ config, p.2.disabled = false) ∧
    (initialize_mcp_servers_fallback_ok config = true ↔
        ∃ p ∈ config, p.2.disabled = false) := by
  have hvals := init_fallback_values config
  have hflags : ∀ p ∈ initialize_mcp_servers_fallback config,
      p.2.initialized = true ∧ p.2.fallback_mode = true := by
    intro p hp
    rw [hvals p hp]
    exact ⟨rfl, rfl⟩
  have havail : get_available_tools (initialize_mcp_servers_fallback config) =
      (initialize_mcp_servers_fallback config).map Prod.fst :=
    available_eq_keys (fun p hp => (hflags p hp).1)
  have hne : initialize_mcp_servers_fallback config ≠ [] ↔
      ∃ p ∈ config, p.2.disabled = false := by
    constructor
    · intro h
      by_contra hno
      push_neg at hno
      refine h (init_fallback_all_disabled config ?_)
      intro p hp
      have := hno p hp
      simp only [Bool.not_eq_false] at this ⊢
      exact this
    · rintro ⟨p, hp, hpd⟩
      intro hempty
      have := init_fallback_mem config p.1 p.2 (by simpa using hp) hpd
      rw [hempty] at this
      simp at this
  refine ⟨hflags, fun n c hm hd => init_fallback_mem config n c hm hd, ?_, ?_⟩
  · rw [havail]
    rw [← hne]
    constructor
    · intro h hempty
      exact h (by rw [hempty]; rfl)
    · intro h hmap
      exact h (List.map_eq_nil_iff.mp hmap)
  · unfold initialize_mcp_servers_fallback_ok
    rw [← hne]
    constructor
    · intro h
      simpa using h
    · intro h
      simpa using h

/-- C8 witness: a two-server configuration with one server disabled still
reports the other as available in fallback mode. -/
theorem c8_fallback_mode_registry_witness :
    (("server-b", ({ disabled := false } : MCPServerConfig)) ∈
        ([("server-a", { disabled := true }),
          ("server-b", { disabled := false })] :
          List (String × MCPServerConfig)) ∧ (false = false)) ∧
    "server-b" ∈ (initialize_mcp_servers_fallback
        [("server-a", { disabled := true }),
         ("server-b", { disabled := false })]).map Prod.fst ∧
    (get_available_tools (initialize_mcp_servers_fallback
        [("server-a", { disabled := true }),
         ("server-b", { disabled := false })]) ≠ []) ∧
    initialize_mcp_servers_fallback_ok
        [("server-a", { disabled := true }),
         ("server-b", { disabled := false })] = true := by
  refine ⟨⟨by decide, rfl⟩, ?_, ?_, ?_⟩
  · exact (c8_fallback_mode_registry _).2.1 "server-b" { disabled := false }
      (by decide) rfl
  · exact (c8_fallback_mode_registry _).2.2.1.mpr
      ⟨("server-b", { disabled := false }), by decide, rfl⟩
  · exact (c8_fallback_mode_registry _).2.2.2.mpr
      ⟨("server-b", { disabled := false }), by decide, rfl⟩

/-- The server configuration of `config/mcp_config.json` restricted to the
fields the fallback path reads. -/
def defaultServersConfig : List (String × MCPServerConfig) :=
  [("awslabs.cost-analysis-mcp-server", { disabled := false }),
   ("awslabs.aws-documentation-mcp-server", { disabled := false }),
   ("awslabs.terraform-mcp-server", { disabled := false })]

/-- The gateway state after `initialize_mcp_servers` when the connector
library is unavailable: every server is in fallback mode and
`self.mcp_client` is `None`. -/
def fallbackModeEnv : ClientEnv :=
  { mcp_client_present := false,
    mcp_tools := initialize_mcp_servers_fallback defaultServersConfig,
    tools := .error () }

/-- C1 (code bug): with the cost-analysis server marked fallback-mode — the
state `initialize_mcp_servers` itself produces when the runtime is missing —
`call_mcp_tool` returns absent for `get_pricing_from_api` even though a
fallback handler is registered for that pair and returns a synthetic result:
the `if not self.mcp_client: return None` guard precedes the fallback-mode
dispatch, and fallback-mode servers only ever exist with `mcp_client = None`
(the tool-not-found path likewise returns `None` at line 483 just before the
dead fallback retry of lines 485-488). -/
theorem c1_fallback_mode_returns_absent :
    dictLookup fallbackModeEnv.mcp_tools "awslabs.cost-analysis-mcp-server" =
      some { initialized := true, fallback_mode := true } ∧
    call_mcp_tool fallbackModeEnv "awslabs.cost-analysis-mcp-server"
      "get_pricing_from_api"
      { service_code := some "AmazonEC2", region := some "us-east-1" } = none ∧
    (handle_fallback_tool_call "awslabs.cost-analysis-mcp-server"
      "get_pricing_from_api"
      { service_code := some "AmazonEC2", region := some "us-east-1" }).isSome
      = true := by
  refine ⟨by decide, rfl, rfl⟩

end MCPClientService

/-! ### Cost-estimation engine (`mcp_client.py`) -/

/-! Character-level scanners for the concrete regular expressions of
`mcp_client.py`.  Each pattern is compiled by hand into a deterministic
matcher; greedy matching of `\d+\.?\d*` and `\s*`/`\s+` agrees with the
regex because no qualifier starts with a digit, a dot, or whitespace. -/

/-- Numeric value of a digit run. -/
def natOfDigits (ds : List Char) : ℕ :=
  ds.foldl (fun a c => a * 10 + (c.toNat - 48)) 0

/-- Value of `<intDs>.<fracDs>` as a rational. -/
def ratOfNumber (intDs fracDs : List Char) : ℚ :=
  qadd (mkRat (natOfDigits intDs) 1)
    (mkRat (natOfDigits fracDs) (10 ^ fracDs.length))

/-- Match `\d+\.?\d*` at the head: greedy digits, optional dot, greedy
digits; returns the captured value and the rest. -/
def matchNumber (l : List Char) : Option (ℚ × List Char) :=
  let ds := l.takeWhile (·.isDigit)
  let r1 := l.dropWhile (·.isDigit)
  if ds.isEmpty then none
  else
    match r1 with
    | '.' :: r2 =>
      some (ratOfNumber ds (r2.takeWhile (·.isDigit)), r2.dropWhile (·.isDigit))
    | _ => some (ratOfNumber ds [], r1)

/-- `\s*`. -/
def skipWs (l : List Char) : List Char := l.dropWhile isSpaceC

/-- `\s+`. -/
def matchWs1 (l : List Char) : Option (List Char) :=
  if (l.takeWhile isSpaceC).isEmpty then none else some (l.dropWhile isSpaceC)

/-- Case-insensitive literal match (for `re.IGNORECASE`). -/
def matchCI : List Char → List Char → Option (List Char)
  | [], l => some l
  | _ :: _, [] => none
  | c :: cs, x :: xs =>
    if asciiLower x = asciiLower c then matchCI cs xs else none

/-- `per\s+<word>`. -/
def matchPerWord (word : String) (l : List Char) : Option (List Char) :=
  match matchCI "per".data l with
  | some r =>
    match matchWs1 r with
    | some r2 => matchCI word.data r2
    | none => none
  | none => none

/-- `(?:per\s+month|monthly|\/month)` — the web-tier alternative order. -/
def matchMonthQualWeb (l : List Char) : Option (List Char) :=
  match matchPerWord "month" l with
  | some r => some r
  | none =>
    match matchCI "monthly".data l with
    | some r => some r
    | none => matchCI "/month".data l

/-- `(?:per\s+month|/month|monthly)` — the documentation-tier order. -/
def matchMonthQualDoc (l : List Char) : Option (List Char) :=
  match matchPerWord "month" l with
  | some r => some r
  | none =>
    match matchCI "/month".data l with
    | some r => some r
    | none => matchCI "monthly".data l

/-- `(?:per\s+hour|/hour|hourly)`. -/
def matchHourQual (l : List Char) : Option (List Char) :=
  match matchPerWord "hour" l with
  | some r => some r
  | none =>
    match matchCI "/hour".data l with
    | some r => some r
    | none => matchCI "hourly".data l

/-- `(?:per\s+GB|/GB)`. -/
def matchGBQual (l : List Char) : Option (List Char) :=
  match matchPerWord "GB" l with
  | some r => some r
  | none => matchCI "/GB".data l

/-- `\$(\d+\.?\d*)` followed by `\s*` and a qualifier. -/
def matchDollarNumberQual (qual : List Char → Option (List Char))
    (l : List Char) : Option (ℚ × List Char) :=
  match l with
  | '$' :: r =>
    match matchNumber r with
    | some (v, r2) =>
      match qual (skipWs r2) with
      | some r3 => some (v, r3)
      | none => none
    | none => none
  | _ => none

/-- Web pattern 1: `\$(\d+\.?\d*)\s*(?:per\s+month|monthly|\/month)`. -/
def matchP1 : List Char → Option (ℚ × List Char) :=
  matchDollarNumberQual matchMonthQualWeb

/-- Web pattern 2: `(\d+\.?\d*)\s*USD\s*(?:per\s+month|monthly|\/month)`. -/
def matchP2 (l : List Char) : Option (ℚ × List Char) :=
  match matchNumber l with
  | some (v, r1) =>
    match matchCI "USD".data (skipWs r1) with
    | some r2 =>
      match matchMonthQualWeb (skipWs r2) with
      | some r3 => some (v, r3)
      | none => none
    | none => none
  | none => none

/-- Web pattern 3 and documentation pattern 4: `\$(\d+\.?\d*)`. -/
def matchP3 (l : List Char) : Option (ℚ × List Char) :=
  match l with
  | '$' :: r => matchNumber r
  | _ => none

/-- Web pattern 4: `(\d+\.?\d*)\s*USD`. -/
def matchP4 (l : List Char) : Option (ℚ × List Char) :=
  match matchNumber l with
  | some (v, r1) =>
    match matchCI "USD".data (skipWs r1) with
    | some r2 => some (v, r2)
    | none => none
  | none => none

/-- Documentation pattern 1: `\$(\d+\.?\d*)\s*(?:per\s+hour|/hour|hourly)`. -/
def matchD1 : List Char → Option (ℚ × List Char) :=
  matchDollarNumberQual matchHourQual

/-- Documentation pattern 2: `\$(\d+\.?\d*)\s*(?:per\s+month|/month|monthly)`. -/
def matchD2 : List Char → Option (ℚ × List Char) :=
  matchDollarNumberQual matchMonthQualDoc

/-- Documentation pattern 3: `\$(\d+\.?\d*)\s*(?:per\s+GB|/GB)`. -/
def matchD3 : List Char → Option (ℚ × List Char) :=
  matchDollarNumberQual matchGBQual

/-- The `_convert` extraction pattern `\$?(\d+\.?\d*)`. -/
def matchOptDollarNumber (l : List Char) : Option (ℚ × List Char) :=
  match l with
  | '$' :: r => matchNumber r
  | _ => matchNumber l

/-- `re.search`: the value of the leftmost match. -/
def searchFirst (m : List Char → Option (ℚ × List Char)) :
    List Char → Option ℚ
  | [] => none
  | c :: rest =>
    match m (c :: rest) with
    | some (v, _) => some v
    | none => searchFirst m rest

/-- `re.findall` driver with explicit fuel (every matcher consumes at least
one character, so `fuel = length` never runs out before the scan ends). -/
def findAllFuel (m : List Char → Option (ℚ × List Char)) :
    ℕ → List Char → List ℚ
  | 0, _ => []
  | _, [] => []
  | fuel + 1, c :: rest =>
    match m (c :: rest) with
    | some (v, rem) => v :: findAllFuel m fuel rem
    | none => findAllFuel m fuel rest

/-- `re.findall`: all values of non-overlapping leftmost matches. -/
def findAllM (m : List Char → Option (ℚ × List Char)) (l : List Char) :
    List ℚ :=
  findAllFuel m l.length l

/-- Ascending sort of extracted prices (`list.sort()`). -/
def sortPrices (l : List ℚ) : List ℚ := l.insertionSort (· ≤ ·)

/-- Python `float()` applied to an MCP value: numbers pass through, strings
are parsed (optional sign, `d+`, `d+.d*`, `.d+`; scientific notation and
special values are not modelled — the engine never produces them), and
anything else raises (`none`). -/
def pyFloat : MCPVal → Option ℚ
  | .MNum q => some q
  | .MStr s =>
    let t := (pyStrip s).data
    let (sign, t1) : ℤ × List Char :=
      match t with
      | '-' :: r => (-1, r)
      | '+' :: r => (1, r)
      | _ => (1, t)
    let ds := t1.takeWhile (·.isDigit)
    let r1 := t1.dropWhile (·.isDigit)
    match r1 with
    | [] => if ds.isEmpty then none else some (qmul (mkRat sign 1) (ratOfNumber ds []))
    | '.' :: r2 =>
      let fs := r2.takeWhile (·.isDigit)
      if (r2.dropWhile (·.isDigit)).isEmpty then
        if ds.isEmpty && fs.isEmpty then none
        else some (qmul (mkRat sign 1) (ratOfNumber ds fs))
      else none
    | _ => none
  | _ => none

/-- Truthiness of an optional string field (Python `if x:` on a str-or-None,
used for `instance_type`). -/
def optStrTruthy : Option String → Bool
  | some s => !strEmpty s
  | none => false

namespace MCPClientService

/-- The normalized cost-estimate dict the engine returns: `cost`, `detail`,
`optimization`, `current_state`, `reduction_rate`, plus `source`/`note` keys
only where the source adds them (`none` = key absent).  `cost` and
`optimization` are `MCPVal` because two `_convert` branches copy tool-supplied
values into them without coercion. -/
structure CostResult where
  cost : MCPVal
  detail : String
  optimization : MCPVal
  current_state : String
  reduction_rate : ℚ
  source : Option String := none
  note : Option String := none
deriving Repr

/-- `_parse_text_cost_result`: first match of the four web price patterns in
order (zero when none match), plus keyword-derived advice. -/
def parse_text_cost_result (text_result : String) (service_name : String)
    (instance_type : Option String) (region : String) : CostResult :=
  let t := text_result.data
  let monthly_cost : ℚ :=
    match searchFirst matchP1 t with
    | some v => v
    | none =>
      match searchFirst matchP2 t with
      | some v => v
      | none =>
        match searchFirst matchP3 t with
        | some v => v
        | none =>
          match searchFirst matchP4 t with
          | some v => v
          | none => mkRat 0 1
  let detail := service_name ++
    (match instance_type with | some it => " " ++ it | none => "") ++
    " (" ++ region ++ ")"
  let optimization :=
    if strIn "reserved" (pyLower text_result) then "Reserved Instance利用"
    else if strIn "spot" (pyLower text_result) then "Spot Instance検討"
    else if strIn "saving" (pyLower text_result) then "Savings Plans検討"
    else "Reserved Instance検討"
  { cost := .MNum monthly_cost, detail := detail,
    optimization := .MStr optimization,
    current_state := "オンデマンド", reduction_rate := mkRat 25 100 }

/-- Python `mcp_result.get("source") == tag` (equality with a string is
`False` for a missing or non-string value). -/
def isSourceTag (d : List (String × MCPVal)) (tag : String) : Bool :=
  match dictLookup d "source" with
  | some (.MStr s) => s = tag
  | _ => false

/-- `"; ".join` over the first two recommendation entries; raises (`none`)
when an entry is not a string. -/
def joinRecommendations (l : List MCPVal) : Option String :=
  let strs := l.filterMap (fun v => match v with | .MStr s => some s | _ => none)
  if strs.length = l.length then some (String.intercalate "; " strs) else none

/-- The `monthly_cost` extraction of `_convert_mcp_result_to_standard_format`
on the plain-dict path (`none` = a `float()` conversion raised). -/
def convertDictCost (d : List (String × MCPVal)) : Option MCPVal :=
  match dictLookup d "cost" with
  | some v => (pyFloat v).map .MNum
  | none =>
    match dictLookup d "price" with
    | some v => (pyFloat v).map .MNum
    | none =>
      match dictLookup d "monthly_cost" with
      | some v => (pyFloat v).map .MNum
      | none =>
        match dictLookup d "pricing" with
        | some (.MDict pd) =>
          some ((dictLookup pd "monthly_estimate").getD
            ((dictLookup pd "monthly").getD (.MNum (mkRat 0 1))))
        | _ =>
          match searchFirst matchOptDollarNumber (pyStr (.MDict d)).data with
          | some v => some (.MNum v)
          | none => some (.MNum (mkRat 0 1))

/-- The `optimization` extraction of `_convert_mcp_result_to_standard_format`
(`none` = a raised `TypeError`; Python string slicing of a non-list
`recommendations` value is modelled only for lists and strings, the values
this code base produces). -/
def convertOptimization (d : List (String × MCPVal)) : Option MCPVal :=
  if isSourceTag d "fallback_analysis" then
    match (dictLookup d "recommendations").getD (.MList []) with
    | .MList rl =>
      if rl.isEmpty then some (.MStr "Reserved Instance検討")
      else (joinRecommendations (rl.take 2)).map .MStr
    | .MStr s =>
      if strEmpty s then some (.MStr "Reserved Instance検討")
      else some (.MStr (String.intercalate "; "
        ((s.data.take 2).map (fun ch => String.mk [ch]))))
    | _ => none
  else
    match dictLookup d "optimization" with
    | some v => some v
    | none =>
      match dictLookup d "recommendation" with
      | some v => some v
      | none =>
        match dictLookup d "recommendations" with
        | some (.MList rl) => (joinRecommendations (rl.take 2)).map .MStr
        | _ => some (.MStr "Reserved Instance検討")

/-- `_convert_mcp_result_to_standard_format`: strings go through the text
parser; dicts are mined field by field (special-casing the two fallback
provenance tags); other values are stringified and text-parsed. `none`
corresponds to the `except` arm returning `None`. -/
def convert_mcp_result_to_standard_format (mcp_result : MCPVal)
    (service_name : String) (instance_type : Option String) (region : String) :
    Option CostResult :=
  match mcp_result with
  | .MStr s => some (parse_text_cost_result s service_name instance_type region)
  | .MDict d =>
    let detail0 := service_name ++
      (match instance_type with | some it => " " ++ it | none => "") ++
      " (" ++ region ++ ")"
    let branches : Option (MCPVal × String × String) :=
      if isSourceTag d "fallback_calculation" then
        match (dictLookup d "pricing").getD (.MDict []) with
        | .MDict pd =>
          some ((dictLookup pd "monthly_estimate").getD (.MNum (mkRat 0 1)),
            detail0 ++ " [フォールバック推定値]", " (フォールバック)")
        | _ => none
      else if isSourceTag d "fallback_analysis" then
        some (.MNum (mkRat 75 1), detail0 ++ " [フォールバック分析]",
          " (フォールバック分析)")
      else
        (convertDictCost d).map (fun mc => (mc, detail0, ""))
    match branches with
    | none => none
    | some (monthly_cost, detail, source_info) =>
      match convertOptimization d with
      | none => none
      | some opt0 =>
        let note_info := (dictLookup d "note").getD (.MStr "")
        let optFinal : Option MCPVal :=
          if pyTruthy note_info then
            match opt0 with
            | .MStr s => some (.MStr (s ++ " " ++ source_info))
            | _ => none
          else some opt0
        match optFinal with
        | none => none
        | some optimization =>
          some { cost := monthly_cost, detail := detail,
                 optimization := optimization,
                 current_state := "オンデマンド" ++ source_info,
                 reduction_rate := mkRat 25 100 }
  | v => some (parse_text_cost_result (pyStr v) service_name instance_type region)

end MCPClientService

/-- Python `s.startswith(prefix)`, reducible. -/
def strStartsWith (s pre : String) : Bool := pre.data.isPrefixOf s.data

namespace AWSServiceCodeHelper

/-- Python `str.title()` (ASCII): a letter after a non-letter is
upper-cased, any other letter is lower-cased. -/
def pyTitleAux : List Char → Bool → List Char
  | [], _ => []
  | c :: t, prevAlpha =>
    (if prevAlpha then asciiLower c else asciiUpper c) :: pyTitleAux t c.isAlpha

/-- Python `str.title()`. -/
def pyTitle (s : String) : String := ⟨pyTitleAux s.data false⟩

/-- The result dict of `get_service_info`. -/
structure ServiceInfo where
  service_name : String
  service_code : String
  search_term : String
deriving Repr, DecidableEq

/-- `get_service_info`: resolve the code, then take the display name of the
first catalog entry carrying that code (title-cased), falling back to the
title-cased input. -/
def get_service_info (codes : List (String × String)) (service_name : String) :
    Option ServiceInfo :=
  match find_service_code codes service_name with
  | none => none
  | some code =>
    let normalized := (codes.find? (fun p => p.2 = code)).map (fun p => pyTitle p.1)
    some ⟨normalized.getD (pyTitle service_name), code, service_name⟩

end AWSServiceCodeHelper

namespace MCPClientService

/-- The `region_multiplier` table of `_calculate_fallback_cost_estimate`. -/
def region_multiplier_table : List (String × ℚ) :=
  [("us-east-1", mkRat 1 1), ("us-east-2", mkRat 102 100),
   ("us-west-1", mkRat 108 100), ("us-west-2", mkRat 105 100),
   ("eu-west-1", mkRat 110 100), ("eu-west-2", mkRat 112 100),
   ("eu-west-3", mkRat 115 100), ("eu-central-1", mkRat 113 100),
   ("ap-northeast-1", mkRat 115 100), ("ap-northeast-2", mkRat 112 100),
   ("ap-southeast-1", mkRat 112 100), ("ap-southeast-2", mkRat 114 100),
   ("ap-south-1", mkRat 108 100), ("ca-central-1", mkRat 106 100),
   ("sa-east-1", mkRat 118 100)]

/-- The `instance_multiplier` table of `_calculate_fallback_cost_estimate`. -/
def instance_multiplier_table : List (String × ℚ) :=
  [("t3.nano", mkRat 30 100), ("t3.micro", mkRat 50 100),
   ("t3.small", mkRat 1 1), ("t3.medium", mkRat 180 100),
   ("t3.large", mkRat 360 100), ("t3.xlarge", mkRat 720 100),
   ("t3.2xlarge", mkRat 1440 100),
   ("t4g.nano", mkRat 25 100), ("t4g.micro", mkRat 45 100),
   ("t4g.small", mkRat 90 100), ("t4g.medium", mkRat 160 100),
   ("t4g.large", mkRat 320 100), ("t4g.xlarge", mkRat 640 100),
   ("t4g.2xlarge", mkRat 1280 100),
   ("m5.large", mkRat 4 1), ("m5.xlarge", mkRat 8 1),
   ("m5.2xlarge", mkRat 16 1), ("m5.4xlarge", mkRat 32 1),
   ("c5.large", mkRat 380 100), ("c5.xlarge", mkRat 760 100),
   ("c5.2xlarge", mkRat 1520 100), ("c5.4xlarge", mkRat 3040 100),
   ("r5.large", mkRat 520 100), ("r5.xlarge", mkRat 1040 100),
   ("r5.2xlarge", mkRat 2080 100), ("r5.4xlarge", mkRat 4160 100)]

/-- The `base_costs` table of `_calculate_fallback_cost_estimate`
(monthly USD, standard configuration in us-east-1). -/
def base_costs_table : List (String × ℚ) :=
  [("AmazonEC2", mkRat 25 1), ("AmazonS3", mkRat 8 1),
   ("AmazonRDS", mkRat 85 1), ("AWSLambda", mkRat 12 1),
   ("AmazonCloudFront", mkRat 15 1), ("AmazonVPC", mkRat 5 1),
   ("AmazonDynamoDB", mkRat 18 1), ("AmazonECS", mkRat 30 1),
   ("AmazonEKS", mkRat 75 1), ("AmazonLightsail", mkRat 20 1),
   ("AmazonEFS", mkRat 35 1), ("AmazonFSx", mkRat 120 1),
   ("AmazonRedshift", mkRat 180 1), ("AmazonElastiCache", mkRat 95 1),
   ("AmazonBedrock", mkRat 45 1), ("AmazonSageMaker", mkRat 150 1),
   ("AmazonSNS", mkRat 2 1), ("AmazonSQS", mkRat 3 1),
   ("AmazonCloudWatch", mkRat 12 1), ("AmazonRoute53", mkRat 8 1),
   ("AWSELB", mkRat 25 1)]

/-- `_calculate_fallback_cost_estimate`: deterministic static computation
`base × regionMultiplier × instanceMultiplier` with heuristic advice. -/
def calculate_fallback_cost_estimate (catalog : List (String × String))
    (service_name : String) (region : String) (instance_type : Option String) :
    CostResult :=
  let normalized :=
    (AWSServiceCodeHelper.find_service_code catalog service_name).getD service_name
  let region_multiplier := (dictLookup region_multiplier_table region).getD (mkRat 1 1)
  let instance_multiplier :=
    if optStrTruthy instance_type then
      (dictLookup instance_multiplier_table (instance_type.getD "")).getD (mkRat 1 1)
    else mkRat 1 1
  let base_cost := (dictLookup base_costs_table normalized).getD (mkRat 30 1)
  let final_cost := qmul (qmul base_cost region_multiplier) instance_multiplier
  let display_name :=
    match AWSServiceCodeHelper.get_service_info catalog service_name with
    | some si => si.service_name
    | none => service_name
  let sug1 : List String :=
    if optStrTruthy instance_type &&
        strStartsWith (instance_type.getD "") "t3." then
      ["Reserved Instanceで20-75%の削減可能"]
    else if optStrTruthy instance_type &&
        strIn "xlarge" (instance_type.getD "") then
      ["Savings Plansで最大72%の削減可能"]
    else []
  let sug2 : List String :=
    if normalized = "AmazonEC2" then ["Spot Instanceで最大90%の削減可能"]
    else if normalized = "AmazonS3" then ["Intelligent Tieringで自動コスト最適化"]
    else if normalized = "AmazonRDS" then ["Aurora Serverlessで使用量ベース課金"]
    else []
  let suggestions := sug1 ++ sug2
  let optimization :=
    if suggestions.isEmpty then "詳細分析が必要"
    else String.intercalate "; " suggestions
  let reduction_rate :=
    if suggestions.any (fun s => strIn "Reserved" s) then mkRat 35 100
    else if suggestions.any (fun s => strIn "Savings" s) then mkRat 45 100
    else if suggestions.any (fun s => strIn "Spot" s) then mkRat 65 100
    else mkRat 15 100
  { cost := .MNum (round2 final_cost),
    detail := display_name ++ " " ++
      (if optStrTruthy instance_type then instance_type.getD "" else "標準構成") ++
      " (" ++ region ++ ") [推定値]",
    optimization := .MStr optimization,
    current_state := "オンデマンド料金",
    reduction_rate := reduction_rate,
    source := none,
    note := some "MCPサーバー未利用のため推定値です。正確な料金は AWS料金計算ツールをご利用ください。" }

/-- Pad to four digits for the `:.4f` format. -/
def padZeros4 (n : ℕ) : String :=
  let s := toString n
  ⟨List.replicate (4 - s.data.length) '0' ++ s.data⟩

/-- Python `f"{q:.4f}"` for the non-negative rates this code formats
(round half to even to four places). -/
def formatFixed4 (q : ℚ) : String :=
  let n := round4 q
  toString (n / 10000) ++ "." ++ padZeros4 (n % 10000).toNat

/-- The content string `_extract_pricing_from_documentation` mines:
`content`, else `description`, else `text`, else the whole dict
stringified. -/
def doc_content_of (d : List (String × MCPVal)) : String :=
  match dictLookup d "content" with
  | some v => pyStr v
  | none =>
    match dictLookup d "description" with
    | some v => pyStr v
    | none =>
      match dictLookup d "text" with
      | some v => pyStr v
      | none => pyStr (.MDict d)

/-- All prices matched by the four documentation patterns, kept when inside
the plausible range `[0.001, 10000]`. -/
def extract_doc_prices (content : List Char) : List ℚ :=
  (findAllM matchD1 content ++ findAllM matchD2 content ++
   findAllM matchD3 content ++ findAllM matchP3 content).filter
    (fun p => decide (mkRat 1 1000 ≤ p) && decide (p ≤ mkRat 10000 1))

/-- The hourly rate `_extract_pricing_from_documentation` selects: the sole
price, or the middle element (`len // 2`) of the ascending sort. -/
def doc_selected_rate (content : List Char) : Option ℚ :=
  let extracted := extract_doc_prices content
  if extracted.isEmpty then none
  else
    let sorted := sortPrices extracted
    sorted.get? (if sorted.length = 1 then 0 else sorted.length / 2)

/-- `_extract_pricing_from_documentation`: mine the content for prices,
project the selected hourly rate to a month (×730) unless that exceeds the
$5000 ceiling (then the raw number is taken as already monthly). -/
def extract_pricing_from_documentation (d : List (String × MCPVal))
    (service_code : String) (instance_type : Option String) (region : String)
    (display_name : String) : Option CostResult :=
  let content := doc_content_of d
  if strEmpty content then none
  else
    match doc_selected_rate content.data with
    | none => none
    | some hourly_price =>
      let projected := qmul hourly_price (mkRat 730 1)
      let monthly_cost :=
        if mkRat 5000 1 < projected then hourly_price else projected
      let suggestions : List String :=
        if service_code = "AmazonEC2" then
          ["Reserved Instanceで最大75%削減", "Spot Instanceで最大90%削減"]
        else if service_code = "AmazonRDS" then ["Reserved Instanceで最大69%削減"]
        else if service_code = "AmazonS3" then ["Intelligent Tieringで自動最適化"]
        else ["Reserved pricing optionsで削減可能"]
      some { cost := .MNum (round2 monthly_cost),
             detail := display_name ++ " " ++
               (if optStrTruthy instance_type then instance_type.getD ""
                else "標準構成") ++ " (" ++ region ++ ") [AWS Docs]",
             optimization := .MStr (String.intercalate "; " suggestions),
             current_state := "オンデマンド料金",
             reduction_rate := mkRat 35 100,
             source := some "AWS Documentation MCP",
             note := some ("AWS公式ドキュメントから抽出した価格情報です（時間単価: $" ++
               formatFixed4 hourly_price ++ "）") }

/-- The behaviour of `call_mcp_tool` as `get_cost_estimation` sees it: a
result (possibly `None`), or an exception (`.error`, which the surrounding
`try`/`except` arms observe; the shipped `call_mcp_tool` never raises, so
instantiations with `.ok` reflect the real gateway). -/
def CallTool : Type :=
  String → String → ToolParams → Except Unit (Option MCPVal)

/-- `_get_pricing_from_aws_documentation`: a pricing-oriented documentation
search, extraction, then one generic retry when an instance type exists; an
exception anywhere inside returns `None`. -/
def get_pricing_from_aws_documentation (ct : CallTool) (service_code : String)
    (region : String) (instance_type : Option String) (display_name : String) :
    Option CostResult :=
  let pricing_query := display_name ++ " pricing" ++
    (if optStrTruthy instance_type then " " ++ instance_type.getD "" else "") ++
    " " ++ region ++ " cost per hour monthly"
  match ct "awslabs.aws-documentation-mcp-server" "search_documentation"
      { query := some pricing_query } with
  | .error _ => none
  | .ok doc_result =>
    let first :=
      match doc_result with
      | some (.MDict d) =>
        if d.isEmpty then none
        else extract_pricing_from_documentation d service_code instance_type
          region display_name
      | _ => none
    match first with
    | some r => some r
    | none =>
      if optStrTruthy instance_type then
        let generic_query := "AWS " ++ display_name ++ " " ++
          instance_type.getD "" ++ " pricing cost"
        match ct "awslabs.aws-documentation-mcp-server" "search_documentation"
            { query := some generic_query } with
        | .error _ => none
        | .ok doc2 =>
          match doc2 with
          | some (.MDict d) =>
            if d.isEmpty then none
            else extract_pricing_from_documentation d service_code
              instance_type region display_name
          | _ => none
      else none

/-- Caller input of `get_cost_estimation` (`usage_details` is carried as its
rendered string form, used only inside the web-search query). -/
structure ServiceConfig where
  service_name : String
  region : Option String := none
  instance_type : Option String := none
  usage_details : Option String := none
deriving Repr

/-- The `valid_regions` allow-list of `get_cost_estimation`. -/
def valid_regions : List String :=
  ["us-east-1", "us-east-2", "us-west-1", "us-west-2",
   "eu-west-1", "eu-west-2", "eu-west-3", "eu-central-1",
   "ap-northeast-1", "ap-northeast-2", "ap-southeast-1", "ap-southeast-2",
   "ap-south-1", "ca-central-1", "sa-east-1"]

/-- The cache key data string of `get_cost_estimation`. -/
def cost_cache_key (cfg : ServiceConfig) : String :=
  cfg.service_name ++ "_" ++ (cfg.instance_type.getD "default") ++ "_" ++
    (cfg.region.getD "us-east-1")

/-- Region after the validity check (invalid regions fall back to
us-east-1). -/
def resolved_region (cfg : ServiceConfig) : String :=
  let region := cfg.region.getD "us-east-1"
  if valid_regions.contains region then region else "us-east-1"

/-- Display name used in queries and details. -/
def display_name_of (catalog : List (String × String)) (cfg : ServiceConfig) :
    String :=
  match AWSServiceCodeHelper.get_service_info catalog cfg.service_name with
  | some si => si.service_name
  | none => cfg.service_name

/-- The natural-language query synthesized for the web-search pricing path. -/
def cost_query (catalog : List (String × String)) (cfg : ServiceConfig) :
    String :=
  "Provide cost estimate for AWS " ++ display_name_of catalog cfg ++
    (if optStrTruthy cfg.instance_type then
      " using " ++ cfg.instance_type.getD "" ++ " instance" else "") ++
    " in " ++ resolved_region cfg ++ " region" ++
    (match cfg.usage_details with
     | some ud => if strEmpty ud then "" else " with usage: " ++ ud
     | none => "")

/-- The primary/secondary tool calls of `get_cost_estimation`: the API path,
falling back to the web-search path only when the API call *raises* — a
failure by returning `None` skips the web path, because `call_mcp_tool`
itself never raises. -/
def mcp_tool_tier_result (ct : CallTool) (catalog : List (String × String))
    (cfg : ServiceConfig) (service_code : String) : Option MCPVal :=
  match ct "awslabs.cost-analysis-mcp-server" "get_pricing_from_api"
      { service_code := some service_code, region := some (resolved_region cfg) } with
  | .ok r => r
  | .error _ =>
    match ct "awslabs.cost-analysis-mcp-server" "get_pricing_from_web"
        { query := some (cost_query catalog cfg) } with
    | .ok r => r
    | .error _ => none

/-- The tool tier as a whole: a truthy tool result converted to the standard
format (a falsy result or a conversion failure falls through). -/
def tool_tier (ct : CallTool) (catalog : List (String × String))
    (cfg : ServiceConfig) (service_code : String) : Option CostResult :=
  match mcp_tool_tier_result ct catalog cfg service_code with
  | some v =>
    if pyTruthy v then
      convert_mcp_result_to_standard_format v service_code cfg.instance_type
        (resolved_region cfg)
    else none
  | none => none

/-- The documentation tier of `get_cost_estimation`. -/
def doc_tier (ct : CallTool) (catalog : List (String × String))
    (cfg : ServiceConfig) (service_code : String) : Option CostResult :=
  get_pricing_from_aws_documentation ct service_code (resolved_region cfg)
    cfg.instance_type (display_name_of catalog cfg)

/-- The static tier `get_cost_estimation` ends in: with an unresolved service
name, the raw upper-cased input and the *unvalidated* region; with a resolved
code, the code and the validated region. -/
def static_tier (catalog : List (String × String)) (cfg : ServiceConfig) :
    CostResult :=
  match AWSServiceCodeHelper.find_service_code catalog cfg.service_name with
  | none =>
    calculate_fallback_cost_estimate catalog (pyUpper cfg.service_name)
      (cfg.region.getD "us-east-1") cfg.instance_type
  | some service_code =>
    calculate_fallback_cost_estimate catalog service_code (resolved_region cfg)
      cfg.instance_type

/-- `get_cost_estimation`: cache check, service-code resolution (straight to
the static tier when unresolved), tool tier, documentation tier, static
tier.  Tool- and documentation-tier successes are cached for 300 seconds;
the static tier's result is returned without being cached.  The helper
acquisition (`get_service_code_helper`) is modelled as always succeeding and
the outer `except` arm (lines 896-921) is unreachable because no modelled
operation raises outside the inner handlers. -/
def get_cost_estimation (catalog : List (String × String)) (ct : CallTool)
    (cfg : ServiceConfig) (cache : MCPRequestCache CostResult) (now : ℚ) :
    CostResult × MCPRequestCache CostResult :=
  let cache_key_data := cost_cache_key cfg
  let got := cache.get now "get_cost_estimation" [cache_key_data] []
  match got.1 with
  | some cached => (cached, got.2)
  | none =>
    match AWSServiceCodeHelper.find_service_code catalog cfg.service_name with
    | none => (static_tier catalog cfg, got.2)
    | some service_code =>
      match tool_tier ct catalog cfg service_code with
      | some result =>
        (result, got.2.set now "get_cost_estimation" result
          (some (mkRat 300 1)) [cache_key_data] [])
      | none =>
        match doc_tier ct catalog cfg service_code with
        | some doc_result =>
          (doc_result, got.2.set now "get_cost_estimation" doc_result
            (some (mkRat 300 1)) [cache_key_data] [])
        | none => (static_tier catalog cfg, got.2)

/-- The tool-call behaviour that exhibits the C2 divergence: the structured
API path fails by returning `None`, while the web-search path would succeed
with a well-formed cost. -/
def c2_call_tool : CallTool := fun _ tool _ =>
  if tool = "get_pricing_from_api" then .ok none
  else if tool = "get_pricing_from_web" then
    .ok (some (.MDict [("cost", .MNum (mkRat 42 1))]))
  else .ok none

/-- The caller input used by the concrete engine evaluations. -/
def c2_cfg : ServiceConfig := { service_name := "EC2", region := some "us-east-1" }

/-- Every tool call fails by returning `None`. -/
def all_fail_call_tool : CallTool := fun _ _ _ => .ok none

/-- The static-fallback estimate for `c2_cfg` over the static catalog. -/
def ec2_static_estimate : CostResult :=
  { cost := .MNum (mkRat 25 1),
    detail := "AmazonEC2 標準構成 (us-east-1) [推定値]",
    optimization := .MStr "Spot Instanceで最大90%の削減可能",
    current_state := "オンデマンド料金",
    reduction_rate := mkRat 65 100,
    source := none,
    note := some "MCPサーバー未利用のため推定値です。正確な料金は AWS料金計算ツールをご利用ください。" }

/-- C2 (code bug): when the primary structured-API pricing call fails by
returning `None` and the web-search call would succeed (it would convert to a
$42 estimate), `estimate` nevertheless returns the static fallback: the
web-search tier sits in an `except` arm that only runs when `call_mcp_tool`
raises, and `call_mcp_tool` swallows every exception and returns `None`
instead. -/
theorem c2_api_failure_skips_web_tier :
    convert_mcp_result_to_standard_format
        (.MDict [("cost", .MNum (mkRat 42 1))]) "AmazonEC2" none "us-east-1" =
      some { cost := .MNum (mkRat 42 1), detail := "AmazonEC2 (us-east-1)",
             optimization := .MStr "Reserved Instance検討",
             current_state := "オンデマンド",
             reduction_rate := mkRat 25 100 } ∧
    (get_cost_estimation AWSServiceCodeHelper.fallback_service_codes
        c2_call_tool c2_cfg (MCPRequestCache.init (mkRat 300 1)) 0).1 =
      ec2_static_estimate := by
  exact ⟨rfl, rfl⟩

theorem mkRat_cast_eq (n : ℤ) (d : ℕ) : mkRat n d = (n : ℚ) / (d : ℚ) := by
  rw [Rat.mkRat_eq_divInt, Rat.divInt_eq_div]
  norm_cast

theorem pyRoundInt_nonneg {y : ℚ} (hy : 0 ≤ y) : 0 ≤ pyRoundInt y := by
  have hf : 0 ≤ Rat.floor y := by
    rw [Rat.le_floor]
    exact_mod_cast hy
  unfold pyRoundInt
  simp only []
  split
  · exact hf
  · split
    · omega
    · split <;> omega

theorem round2_nonneg {x : ℚ} (hx : 0 ≤ x) : 0 ≤ round2 x := by
  unfold round2
  rw [mkRat_cast_eq]
  apply div_nonneg _ (by norm_num)
  have h100 : 0 ≤ qmul x (mkRat 100 1) := by
    rw [qmul_eq, mkRat_cast_eq]
    apply mul_nonneg hx
    norm_num
  exact_mod_cast pyRoundInt_nonneg h100

theorem lookupQ_pos (table : List (String × ℚ)) (k : String) (dflt : ℚ)
    (ht : ∀ p ∈ table, 0 < p.2) (hd : 0 < dflt) :
    0 < (dictLookup table k).getD dflt := by
  unfold dictLookup
  cases hf : table.find? (fun p => p.1 = k) with
  | none => simpa using hd
  | some p =>
    have := ht p (List.mem_of_find?_eq_some hf)
    simpa using this

theorem calculate_fallback_cost_nonneg (catalog : List (String × String))
    (sn region : String) (it : Option String) :
    ∃ q, (calculate_fallback_cost_estimate catalog sn region it).cost =
      .MNum q ∧ 0 ≤ q := by
  refine ⟨_, rfl, ?_⟩
  apply round2_nonneg
  rw [qmul_eq, qmul_eq]
  have hb : (0:ℚ) <
      (dictLookup base_costs_table
        ((AWSServiceCodeHelper.find_service_code catalog sn).getD sn)).getD
        (mkRat 30 1) :=
    lookupQ_pos _ _ _ (by decide) (by decide)
  have hr : (0:ℚ) <
      (dictLookup region_multiplier_table region).getD (mkRat 1 1) :=
    lookupQ_pos _ _ _ (by decide) (by decide)
  have hi : (0:ℚ) <
      (if optStrTruthy it then
        (dictLookup instance_multiplier_table (it.getD "")).getD (mkRat 1 1)
      else mkRat 1 1) := by
    split
    · exact lookupQ_pos _ _ _ (by decide) (by decide)
    · decide
  exact mul_nonneg (mul_nonneg hb.le hr.le) hi.le

theorem mcp_tool_tier_none_of_fail (ct : CallTool)
    (catalog : List (String × String)) (cfg : ServiceConfig) (sc : String)
    (hfail : ∀ s t p, ct s t p = .ok none ∨ ct s t p = .error ()) :
    mcp_tool_tier_result ct catalog cfg sc = none := by
  unfold mcp_tool_tier_result
  rcases hfail "awslabs.cost-analysis-mcp-server" "get_pricing_from_api"
      { service_code := some sc, region := some (resolved_region cfg) } with h | h <;>
    rw [h]
  rcases hfail "awslabs.cost-analysis-mcp-server" "get_pricing_from_web"
      { query := some (cost_query catalog cfg) } with h2 | h2 <;> rw [h2]

theorem tool_tier_none_of_fail (ct : CallTool)
    (catalog : List (String × String)) (cfg : ServiceConfig) (sc : String)
    (hfail : ∀ s t p, ct s t p = .ok none ∨ ct s t p = .error ()) :
    tool_tier ct catalog cfg sc = none := by
  unfold tool_tier
  rw [mcp_tool_tier_none_of_fail ct catalog cfg sc hfail]

theorem doc_tier_none_of_fail (ct : CallTool)
    (catalog : List (String × String)) (cfg : ServiceConfig) (sc : String)
    (hfail : ∀ s t p, ct s t p = .ok none ∨ ct s t p = .error ()) :
    doc_tier ct catalog cfg sc = none := by
  unfold doc_tier get_pricing_from_aws_documentation
  rcases hfail "awslabs.aws-documentation-mcp-server" "search_documentation"
      { query := some (display_name_of catalog cfg ++ " pricing" ++
        (if optStrTruthy cfg.instance_type then
          " " ++ cfg.instance_type.getD "" else "") ++
        " " ++ resolved_region cfg ++ " cost per hour monthly") } with h | h <;>
    simp only [h]
  split
  · rcases hfail "awslabs.aws-documentation-mcp-server" "search_documentation"
        { query := some ("AWS " ++ display_name_of catalog cfg ++ " " ++
          cfg.instance_type.getD "" ++ " pricing cost") } with h2 | h2 <;>
      simp [h2]
  · rfl

/-- C3 (amended): for every well-formed `ServiceConfig`, when every external
tool call fails (returns `None` or raises) and the cache misses, `estimate`
returns — without raising, by totality of the embedding — the static-fallback
result, whose cost is a non-negative number, whose `current_state`,
`detail` and advice are populated, and whose provenance is carried by the
`note` field: the returned dict has *no* `source` field at all. -/
theorem c3_all_fail_returns_static (catalog : List (String × String))
    (ct : CallTool) (cfg : ServiceConfig)
    (cache : MCPRequestCache CostResult) (now : ℚ)
    (hfail : ∀ s t p, ct s t p = .ok none ∨ ct s t p = .error ())
    (hmiss : (cache.get now "get_cost_estimation" [cost_cache_key cfg] []).1 =
      none) :
    (get_cost_estimation catalog ct cfg cache now).1 = static_tier catalog cfg ∧
    (∃ q, (static_tier catalog cfg).cost = .MNum q ∧ 0 ≤ q) ∧
    (static_tier catalog cfg).source = none ∧
    (static_tier catalog cfg).note.isSome = true ∧
    (static_tier catalog cfg).current_state = "オンデマンド料金" ∧
    (∃ s, (static_tier catalog cfg).optimization = .MStr s) := by
  refine ⟨?_, ?_, ?_, ?_, ?_, ?_⟩
  · unfold get_cost_estimation
    simp only [hmiss]
    cases hfind : AWSServiceCodeHelper.find_service_code catalog cfg.service_name with
    | none => simp [hfind, static_tier]
    | some code =>
      simp only [hfind, tool_tier_none_of_fail ct catalog cfg code hfail,
        doc_tier_none_of_fail ct catalog cfg code hfail]
  · unfold static_tier
    cases AWSServiceCodeHelper.find_service_code catalog cfg.service_name with
    | none => exact calculate_fallback_cost_nonneg catalog _ _ _
    | some code => exact calculate_fallback_cost_nonneg catalog _ _ _
  · unfold static_tier
    cases AWSServiceCodeHelper.find_service_code catalog cfg.service_name <;> rfl
  · unfold static_tier
    cases AWSServiceCodeHelper.find_service_code catalog cfg.service_name <;> rfl
  · unfold static_tier
    cases AWSServiceCodeHelper.find_service_code catalog cfg.service_name <;> rfl
  · unfold static_tier
    cases AWSServiceCodeHelper.find_service_code catalog cfg.service_name <;>
      exact ⟨_, rfl⟩

/-- C3 witness: the all-fail tool behaviour on the EC2 configuration yields
exactly the static-fallback estimate. -/
theorem c3_all_fail_returns_static_witness :
    ((MCPRequestCache.init (mkRat 300 1) :
        MCPRequestCache CostResult).get 0 "get_cost_estimation"
        [cost_cache_key c2_cfg] []).1 = none ∧
    (get_cost_estimation AWSServiceCodeHelper.fallback_service_codes
        all_fail_call_tool c2_cfg (MCPRequestCache.init (mkRat 300 1)) 0).1 =
      static_tier AWSServiceCodeHelper.fallback_service_codes c2_cfg ∧
    (∃ q, (static_tier AWSServiceCodeHelper.fallback_service_codes c2_cfg).cost =
      .MNum q ∧ 0 ≤ q) ∧
    (static_tier AWSServiceCodeHelper.fallback_service_codes c2_cfg).source =
      none := by
  have h := c3_all_fail_returns_static AWSServiceCodeHelper.fallback_service_codes
    all_fail_call_tool c2_cfg (MCPRequestCache.init (mkRat 300 1)) 0
    (fun _ _ _ => Or.inl rfl) rfl
  exact ⟨rfl, h.1, h.2.1, h.2.2.1⟩

/-- C3 counterexample to the claim as stated: with every tier failing, the
value `estimate` returns carries no `source` field at all (`none`), so
"a non-empty source field, with every schema field populated" is false on
the code — provenance is carried only by `note`. -/
theorem c3_static_result_has_no_source_field :
    (get_cost_estimation AWSServiceCodeHelper.fallback_service_codes
        all_fail_call_tool c2_cfg (MCPRequestCache.init (mkRat 300 1)) 0).1.source
      = none ∧
    (get_cost_estimation AWSServiceCodeHelper.fallback_service_codes
        all_fail_call_tool c2_cfg (MCPRequestCache.init (mkRat 300 1)) 0).1.note.isSome
      = true := by
  exact ⟨rfl, rfl⟩

/-- C4 counterexample: a static-fallback success is returned *without* being
written to the cache — after a full estimate that ends in the static tier,
the cache entry dict is still empty — so "every tier's successful result is
written through to the request cache before being returned" is false on the
code. -/
theorem c4_static_result_not_cached :
    (get_cost_estimation AWSServiceCodeHelper.fallback_service_codes
        all_fail_call_tool c2_cfg (MCPRequestCache.init (mkRat 300 1)) 0).1 =
      ec2_static_estimate ∧
    (get_cost_estimation AWSServiceCodeHelper.fallback_service_codes
        all_fail_call_tool c2_cfg (MCPRequestCache.init (mkRat 300 1)) 0).2.cache
      = [] := by
  exact ⟨rfl, rfl⟩

/-- C4 (amended): on a cache miss, a tool-tier success and a
documentation-tier success are each written through to the cache with a TTL
of 300 seconds (5 minutes — the documentation tier does *not* get a longer
30-minute TTL) before being returned, while the static tier's result — and a
resolution failure's — is returned with the cache unchanged beyond the miss
bookkeeping. -/
theorem c4_cache_write_discipline (catalog : List (String × String))
    (ct : CallTool) (cfg : ServiceConfig)
    (cache : MCPRequestCache CostResult) (now : ℚ)
    (hmiss : (cache.get now "get_cost_estimation" [cost_cache_key cfg] []).1 =
      none) :
    (∀ code r,
      AWSServiceCodeHelper.find_service_code catalog cfg.service_name = some code →
      tool_tier ct catalog cfg code = some r →
      get_cost_estimation catalog ct cfg cache now =
        (r, ((cache.get now "get_cost_estimation" [cost_cache_key cfg] []).2).set
          now "get_cost_estimation" r (some (mkRat 300 1))
          [cost_cache_key cfg] [])) ∧
    (∀ code r,
      AWSServiceCodeHelper.find_service_code catalog cfg.service_name = some code →
      tool_tier ct catalog cfg code = none →
      doc_tier ct catalog cfg code = some r →
      get_cost_estimation catalog ct cfg cache now =
        (r, ((cache.get now "get_cost_estimation" [cost_cache_key cfg] []).2).set
          now "get_cost_estimation" r (some (mkRat 300 1))
          [cost_cache_key cfg] [])) ∧
    (∀ code,
      AWSServiceCodeHelper.find_service_code catalog cfg.service_name = some code →
      tool_tier ct catalog cfg code = none →
      doc_tier ct catalog cfg code = none →
      get_cost_estimation catalog ct cfg cache now =
        (static_tier catalog cfg,
         (cache.get now "get_cost_estimation" [cost_cache_key cfg] []).2)) ∧
    (AWSServiceCodeHelper.find_service_code catalog cfg.service_name = none →
      get_cost_estimation catalog ct cfg cache now =
        (static_tier catalog cfg,
         (cache.get now "get_cost_estimation" [cost_cache_key cfg] []).2)) := by
  refine ⟨?_, ?_, ?_, ?_⟩
  · intro code r hfind htool
    unfold get_cost_estimation
    simp only [hmiss, hfind, htool]
  · intro code r hfind htool hdoc
    unfold get_cost_estimation
    simp only [hmiss, hfind, htool, hdoc]
  · intro code hfind htool hdoc
    unfold get_cost_estimation
    simp only [hmiss, hfind, htool, hdoc]
  · intro hfind
    unfold get_cost_estimation
    simp only [hmiss, hfind]

/-- Tool behaviour whose API path succeeds with a well-formed cost dict. -/
def c4_api_ok_tool : CallTool := fun _ tool _ =>
  if tool = "get_pricing_from_api" then
    .ok (some (.MDict [("cost", .MNum (mkRat 42 1))]))
  else .ok none

/-- The converted tool-tier result for that behaviour. -/
def c4_converted : CostResult :=
  { cost := .MNum (mkRat 42 1), detail := "AmazonEC2 (us-east-1)",
    optimization := .MStr "Reserved Instance検討",
    current_state := "オンデマンド", reduction_rate := mkRat 25 100 }

/-- C4 witness: a concrete tool-tier success is cached with TTL 300 s, and a
concrete all-fail run returns the static result with the cache untouched. -/
theorem c4_cache_write_discipline_witness :
    tool_tier c4_api_ok_tool AWSServiceCodeHelper.fallback_service_codes c2_cfg
      "AmazonEC2" = some c4_converted ∧
    get_cost_estimation AWSServiceCodeHelper.fallback_service_codes
        c4_api_ok_tool c2_cfg (MCPRequestCache.init (mkRat 300 1)) 0 =
      (c4_converted,
       (((MCPRequestCache.init (mkRat 300 1) :
          MCPRequestCache CostResult).get 0 "get_cost_estimation"
          [cost_cache_key c2_cfg] []).2).set 0 "get_cost_estimation"
         c4_converted (some (mkRat 300 1)) [cost_cache_key c2_cfg] []) ∧
    get_cost_estimation AWSServiceCodeHelper.fallback_service_codes
        all_fail_call_tool c2_cfg (MCPRequestCache.init (mkRat 300 1)) 0 =
      (static_tier AWSServiceCodeHelper.fallback_service_codes c2_cfg,
       ((MCPRequestCache.init (mkRat 300 1) :
          MCPRequestCache CostResult).get 0 "get_cost_estimation"
          [cost_cache_key c2_cfg] []).2) := by
  refine ⟨rfl, ?_, ?_⟩
  · exact (c4_cache_write_discipline AWSServiceCodeHelper.fallback_service_codes
      c4_api_ok_tool c2_cfg (MCPRequestCache.init (mkRat 300 1)) 0 rfl).1
      "AmazonEC2" c4_converted rfl rfl
  · exact (c4_cache_write_discipline AWSServiceCodeHelper.fallback_service_codes
      all_fail_call_tool c2_cfg (MCPRequestCache.init (mkRat 300 1)) 0 rfl).2.2.1
      "AmazonEC2" rfl rfl rfl

/-- C7 counterexample: the documentation-tier extraction heuristic is *not*
the web-search tier's.  On the text `"5 USD"` the web-tier parser extracts a
$5 cost through its USD-suffix pattern, while the documentation patterns —
all dollar-prefixed — match nothing, so the documentation extraction fails
outright. -/
theorem c7_doc_heuristic_differs_from_web :
    (parse_text_cost_result "5 USD" "AmazonEC2" none "us-east-1").cost =
      .MNum (mkRat 5 1) ∧
    extract_doc_prices ("5 USD").data = [] ∧
    extract_pricing_from_documentation [("content", .MStr "5 USD")]
      "AmazonEC2" none "us-east-1" "Amazon Ec2" = none := by
  exact ⟨rfl, by decide, rfl⟩

/-- C7 (amended): whenever the documentation tier selects an hourly rate `h`
(the median of the dollar-prefixed prices it mined, within `[0.001,10000]`),
the monthly cost it returns is `h * 730` — or the raw `h` when `h * 730`
exceeds the $5000 ceiling — rounded to two decimals.  The extraction
heuristic itself differs from the web tier's (see the counterexample). -/
theorem c7_doc_monthly_projection (d : List (String × MCPVal)) (sc : String)
    (it : Option String) (region display : String) (h : ℚ)
    (hsel : doc_selected_rate (doc_content_of d).data = some h) :
    ∃ r, extract_pricing_from_documentation d sc it region display = some r ∧
      r.cost = .MNum (round2 (if mkRat 5000 1 < qmul h (mkRat 730 1) then h
        else qmul h (mkRat 730 1))) := by
  by_cases hse : strEmpty (doc_content_of d)
  · exfalso
    have hdata : (doc_content_of d).data = [] := by
      simpa [strEmpty, List.isEmpty_iff] using hse
    rw [hdata] at hsel
    simp [doc_selected_rate, extract_doc_prices, findAllM, findAllFuel] at hsel
  · unfold extract_pricing_from_documentation
    rw [if_neg (by simp [hse])]
    rw [hsel]
    exact ⟨_, rfl, rfl⟩

/-- C7 witness: on the content `"$2 per hour"` the selected rate is 2 and the
returned monthly cost is `2 × 730 = 1460`. -/
theorem c7_doc_monthly_projection_witness :
    doc_selected_rate (doc_content_of [("content", .MStr "$2 per hour")]).data =
      some (mkRat 2 1) ∧
    ∃ r, extract_pricing_from_documentation [("content", .MStr "$2 per hour")]
        "AmazonEC2" none "us-east-1" "Amazon Ec2" = some r ∧
      r.cost = .MNum (round2 (if mkRat 5000 1 <
          qmul (mkRat 2 1) (mkRat 730 1) then mkRat 2 1
        else qmul (mkRat 2 1) (mkRat 730 1))) := by
  refine ⟨by decide, ?_⟩
  exact c7_doc_monthly_projection [("content", .MStr "$2 per hour")]
    "AmazonEC2" none "us-east-1" "Amazon Ec2" (mkRat 2 1) (by decide)

end MCPClientService
